import Mathlib

/-!
mcserver: the packet registry, `PacketPlayOutServerDifficulty` and the server lifecycle.

A shallow embedding of `pkg/protocol/packets/registry.go`,
`pkg/protocol/packets/PacketPlayOutServerDifficulty.go` and `pkg/server/server.go`.

* Go maps are finite maps with distinct keys (`GoMap`).  The order in which a
  `range` loop visits a map is left open by Go, so every loop takes the order
  as a parameter (`IterOrder`) and the theorems hold for every order.
* The package-level variables `packets` and `packetsByID` become the two fields
  of an explicit `Registry` state.
* A Go result pair `(value, error)` is a Lean pair whose second component is
  `none` for a nil error.
-/

namespace MCServer

/-! ## Go maps -/

/-- The value stored under `k` in an association list, first match. -/
def lookupEntries {K V : Type} [DecidableEq K] (k : K) : List (K × V) → Option V
  | [] => none
  | (k', v) :: rest => if k' = k then some v else lookupEntries k rest

/-- Store `v` under `k`: replace the entry of `k` when there is one, add one otherwise. -/
def setEntries {K V : Type} [DecidableEq K] (k : K) (v : V) : List (K × V) → List (K × V)
  | [] => [(k, v)]
  | (k', v') :: rest => if k' = k then (k, v) :: rest else (k', v') :: setEntries k v rest

/-- A Go `map[K]V`: finitely many entries, no key twice.  The order of `entries` has no
meaning in Go; it is never observed except through `IterOrder`. -/
structure GoMap (K V : Type) [DecidableEq K] where
  entries : List (K × V)
  nodup : (entries.map Prod.fst).Nodup

namespace GoMap

variable {K V : Type} [DecidableEq K]

/-- Go `make(map[K]V)`. -/
def empty : GoMap K V := ⟨[], List.nodup_nil⟩

/-- Go `v, ok := m[k]`, with `none` for a false `ok`. -/
def get? (m : GoMap K V) (k : K) : Option V := lookupEntries k m.entries

/-- Go `m[k] = v`. -/
def set (m : GoMap K V) (k : K) (v : V) : GoMap K V :=
  ⟨setEntries k v m.entries, by
    have keys : ∀ l : List (K × V), (setEntries k v l).map Prod.fst =
        if k ∈ l.map Prod.fst then l.map Prod.fst else l.map Prod.fst ++ [k] := by
      intro l
      induction l with
      | nil => simp [setEntries]
      | cons e rest ih =>
        obtain ⟨k', v'⟩ := e
        by_cases h : k' = k
        · subst h
          simp [setEntries]
        · have h' : ¬ k = k' := fun e => h e.symm
          by_cases hm : k ∈ rest.map Prod.fst
          · simp only [setEntries, h, if_false, List.map_cons, ih, hm, if_true, List.mem_cons,
              or_true]
          · simp only [setEntries, h, if_false, List.map_cons, ih, hm, List.mem_cons, h',
              or_self, List.cons_append]
    rw [keys]
    split
    · exact m.nodup
    · rename_i hk
      rw [List.nodup_append]
      refine ⟨m.nodup, List.nodup_singleton k, ?_⟩
      intro a ha hb
      rw [List.mem_singleton] at hb
      subst hb
      exact hk ha⟩

end GoMap

/-- The order in which a `range` loop visits the entries of a map.  Go does not specify it,
so it is a parameter: any rearrangement of the entries. -/
structure IterOrder where
  shuffle : {α : Type} → List α → List α
  perm : ∀ {α : Type} (l : List α), (shuffle l).Perm l

/-- Visit the entries in the order they are stored. -/
def IterOrder.stored : IterOrder := ⟨fun l => l, fun l => List.Perm.refl l⟩

/-- Visit the entries in the reverse of the order they are stored. -/
def IterOrder.reversed : IterOrder := ⟨fun l => l.reverse, fun l => List.reverse_perm l⟩

namespace GoMap

variable {K V : Type} [DecidableEq K]

/-- Go `for k, v := range m`, the loop body acting on the state `acc`. -/
def range {β : Type} (ord : IterOrder) (m : GoMap K V) (body : β → K → V → β) (init : β) : β :=
  (ord.shuffle m.entries).foldl (fun acc e => body acc e.1 e.2) init

/-- A Go map literal: the listed entries stored one after the other. -/
def literal (l : List (K × V)) : GoMap K V :=
  l.foldl (fun m e => m.set e.1 e.2) empty

/-- The map with the same keys whose values are read through `f`. -/
def mapValues {W : Type} (m : GoMap K V) (f : V → W) : GoMap K W :=
  ⟨m.entries.map (fun e => (e.1, f e.2)), by
    have h : (m.entries.map (fun e => (e.1, f e.2))).map Prod.fst = m.entries.map Prod.fst := by
      rw [List.map_map]
      rfl
    rw [h]
    exact m.nodup⟩

end GoMap

/-! ## Data model -/

/-- Go `protocol.Protocol`, the integer naming a protocol version. -/
abbrev Protocol := Int

/-- Modelled from the spec: the named versions `protocol.Unknown`, `protocol.V1_16`, ...,
`protocol.V1_16_4` are constants of package `protocol`, whose declarations are not part of
the sources at hand.  The spec calls a version "an opaque, totally ordered identifier
(e.g., an integer)" and gives no values, so the six constants are parameters. -/
structure ProtocolConsts where
  Unknown : Protocol
  V1_16 : Protocol
  V1_16_1 : Protocol
  V1_16_2 : Protocol
  V1_16_3 : Protocol
  V1_16_4 : Protocol

/-- Modelled from the spec: `protocol.State`, "one of a fixed enumeration: `Handshaking`,
`Status`, `Login`, `Play`". -/
inductive State
  | Handshaking
  | Status
  | Login
  | Play
  deriving DecidableEq

/-- Modelled from the spec: `protocol.Direction`, "`ServerBound` (client→server) or
`ClientBound` (server→client)". -/
inductive Direction
  | ServerBound
  | ClientBound
  deriving DecidableEq

/-- The `reflect.Type` of a packet struct: the key of the inner maps of `packets`.  The named
constructors are the packet types registry.go mentions; `other n` stands for any further
packet type. -/
inductive PacketType
  | PacketHandshakingStart
  | PacketStatusOutResponse
  | PacketStatusOutPong
  | PacketStatusInRequest
  | PacketStatusInPing
  | PacketLoginOutDisconnect
  | PacketLoginOutSuccess
  | PacketLoginInStart
  | PacketPlayOutServerDifficulty
  | PacketPlayOutDisconnect
  | PacketPlayOutKeepAlive
  | PacketPlayOutJoinGame
  | PacketPlayOutPositionAndLook
  | PacketPlayInKeepAlive
  | other (n : Nat)
  deriving DecidableEq

/-- Go `type PacketPlayOutServerDifficulty struct { Difficulty uint8; Locked bool }`. -/
structure PacketPlayOutServerDifficulty where
  Difficulty : Nat
  Locked : Bool
  deriving DecidableEq

/-- A non-nil `protocol.Packet`: a pointer to a packet struct.  Only
`PacketPlayOutServerDifficulty` has its struct among the sources; of any other packet only
the type is kept, which is all the registry looks at. -/
inductive Packet
  | serverDifficulty (p : PacketPlayOutServerDifficulty)
  | ofType (t : PacketType)
  deriving DecidableEq

/-- Go `reflect.TypeOf(packet).Elem()`. -/
def Packet.typeOf : Packet → PacketType
  | .serverDifficulty _ => .PacketPlayOutServerDifficulty
  | .ofType t => t

/-- Go `reflect.New(pType).Interface().(protocol.Packet)`: a pointer to a new zero value. -/
def newPacket : PacketType → Packet
  | .PacketPlayOutServerDifficulty => .serverDifficulty ⟨0, false⟩
  | t => .ofType t

/-- The non-nil `error` values that occur. -/
inductive GoError
  /-- Go `errors.New("no packet id found for the given options")` -/
  | noPacketIDFound
  /-- Go `fmt.Errorf("no packet found with id %d", id)` -/
  | noPacketFoundWithID (id : Int)
  /-- The spec's `Underrun`: a read with fewer bytes left than the type requires. -/
  | underrun
  deriving DecidableEq

/-- The value type of `packets`: state → direction → packet type → ID. -/
abbrev PacketsTable := GoMap State (GoMap Direction (GoMap PacketType Int))

/-- The value type of `packetsByID`: state → direction → ID → packet type. -/
abbrev PacketsByIDTable := GoMap State (GoMap Direction (GoMap Int PacketType))

/-- The inner maps of the argument `packetsMap` of `RegisterPackets`, direction → packet type
→ ID.  A caller may leave an inner map nil, which `mergo.Merge` tells apart from an empty
one; `none` is the nil map. -/
abbrev OverrideDirections := GoMap Direction (Option (GoMap PacketType Int))

/-- The type of the argument `packetsMap` of `RegisterPackets`: state → direction → packet
type → ID, with `none` for a nil inner map. -/
abbrev OverridesTable := GoMap State (Option OverrideDirections)

/-- The two package-level variables of registry.go. -/
structure Registry where
  packets : GoMap Protocol PacketsTable
  packetsByID : GoMap Protocol PacketsByIDTable

/-! ## registry.go -/

/-- The table the literal of `packets` gives `protocol.Unknown` (registry.go, lines 13-38):
the baseline. -/
def baselinePackets : PacketsTable :=
  GoMap.literal [
    (State.Handshaking, GoMap.literal [
      (Direction.ServerBound, GoMap.literal [
        (PacketType.PacketHandshakingStart, 0x00)])]),
    (State.Status, GoMap.literal [
      (Direction.ClientBound, GoMap.literal [
        (PacketType.PacketStatusOutResponse, 0x00),
        (PacketType.PacketStatusOutPong, 0x01)]),
      (Direction.ServerBound, GoMap.literal [
        (PacketType.PacketStatusInRequest, 0x00),
        (PacketType.PacketStatusInPing, 0x01)])]),
    (State.Login, GoMap.literal [
      (Direction.ClientBound, GoMap.literal [
        (PacketType.PacketLoginOutDisconnect, 0x00),
        (PacketType.PacketLoginOutSuccess, 0x02)]),
      (Direction.ServerBound, GoMap.literal [
        (PacketType.PacketLoginInStart, 0x00)])])]

/-- The table the literal of `packetsByID` gives `protocol.Unknown` (registry.go, lines
42-67). -/
def baselinePacketsByID : PacketsByIDTable :=
  GoMap.literal [
    (State.Handshaking, GoMap.literal [
      (Direction.ServerBound, GoMap.literal [
        (0x00, PacketType.PacketHandshakingStart)])]),
    (State.Status, GoMap.literal [
      (Direction.ClientBound, GoMap.literal [
        (0x00, PacketType.PacketStatusOutResponse),
        (0x01, PacketType.PacketStatusOutPong)]),
      (Direction.ServerBound, GoMap.literal [
        (0x00, PacketType.PacketStatusInRequest),
        (0x01, PacketType.PacketStatusInPing)])]),
    (State.Login, GoMap.literal [
      (Direction.ClientBound, GoMap.literal [
        (0x00, PacketType.PacketLoginOutDisconnect),
        (0x02, PacketType.PacketLoginOutSuccess)]),
      (Direction.ServerBound, GoMap.literal [
        (0x00, PacketType.PacketLoginInStart)])])]

/-- The initial value of the variable `packets` (registry.go, lines 12-39). -/
def staticPackets (c : ProtocolConsts) : GoMap Protocol PacketsTable :=
  GoMap.literal [(c.Unknown, baselinePackets)]

/-- The initial value of the variable `packetsByID` (registry.go, lines 41-68). -/
def staticPacketsByID (c : ProtocolConsts) : GoMap Protocol PacketsByIDTable :=
  GoMap.literal [(c.Unknown, baselinePacketsByID)]

/-- The registry before `init` runs. -/
def staticRegistry (c : ProtocolConsts) : Registry :=
  { packets := staticPackets c, packetsByID := staticPacketsByID c }

/-- Go `GetPacketID`: the pair `(id, err)`. -/
def GetPacketID (reg : Registry) (proto : Protocol) (state : State) (direction : Direction)
    (packet : Packet) : Int × Option GoError :=
  match reg.packets.get? proto with
  | some states =>
    match states.get? state with
    | some directions =>
      match directions.get? direction with
      | some pTypes =>
        match pTypes.get? (Packet.typeOf packet) with
        | some id => (id, none)
        | none => (0, some GoError.noPacketIDFound)
      | none => (0, some GoError.noPacketIDFound)
    | none => (0, some GoError.noPacketIDFound)
  | none => (0, some GoError.noPacketIDFound)

/-- Go `GetPacketByID`: the pair `(packet, err)`, with `none` for a nil packet. -/
def GetPacketByID (reg : Registry) (proto : Protocol) (state : State) (direction : Direction)
    (id : Int) : Option Packet × Option GoError :=
  match reg.packetsByID.get? proto with
  | some states =>
    match states.get? state with
    | some directions =>
      match directions.get? direction with
      | some pIDs =>
        match pIDs.get? id with
        | some pType => (some (newPacket pType), none)
        | none => (none, some (GoError.noPacketFoundWithID id))
      | none => (none, some (GoError.noPacketFoundWithID id))
    | none => (none, some (GoError.noPacketFoundWithID id))
  | none => (none, some (GoError.noPacketFoundWithID id))

/-- The innermost loop of lines 124-126: a fresh map holding every entry of `pTypes`. -/
def copyPTypes (ord : IterOrder) (pTypes : GoMap PacketType Int) : GoMap PacketType Int :=
  pTypes.range ord (fun acc pType pID => acc.set pType pID) GoMap.empty

/-- The loop of lines 122-127. -/
def copyDirections (ord : IterOrder) (directions : GoMap Direction (GoMap PacketType Int)) :
    GoMap Direction (GoMap PacketType Int) :=
  directions.range ord (fun acc direction pTypes => acc.set direction (copyPTypes ord pTypes))
    GoMap.empty

/-- The loop of lines 120-128: the deep copy of the baseline table. -/
def copyStates (ord : IterOrder) (states : PacketsTable) : PacketsTable :=
  states.range ord (fun acc state directions => acc.set state (copyDirections ord directions))
    GoMap.empty

/-- Modelled from the spec: `mergo.Merge(&dst, src, mergo.WithOverride)` is a call into the
library github.com/imdario/mergo, whose source is not at hand.  The spec describes the merge
as "merging `overrides` on top, with override entries replacing baseline entries at the
(State, Direction, Kind) granularity", "inheriting everything else".  This is the innermost
level: every entry of `src` is stored into `dst`. -/
def mergePTypes (ord : IterOrder) (dst src : GoMap PacketType Int) : GoMap PacketType Int :=
  src.range ord (fun acc pType pID => acc.set pType pID) dst

/-- A direction map of the override stored as it is in the registry: its nil inner maps
read as empty ones, as they do in every lookup and loop of registry.go. -/
def OverrideDirections.asTable (m : OverrideDirections) :
    GoMap Direction (GoMap PacketType Int) :=
  m.mapValues (fun pTypes => pTypes.getD GoMap.empty)

/-- Modelled from the spec: the direction level of `mergo.Merge` with `WithOverride`.  A
direction absent from `dst` receives the table of `src`; one present is merged entry by
entry.  Beyond the spec's words, the library's treatment of nil is kept: with `WithOverride`
a nil inner map of `src` is stored over what `dst` holds for that direction. -/
def mergeDirections (ord : IterOrder) (dst : GoMap Direction (GoMap PacketType Int))
    (src : OverrideDirections) : GoMap Direction (GoMap PacketType Int) :=
  src.range ord (fun acc direction srcTypes =>
    match srcTypes with
    | none => acc.set direction GoMap.empty
    | some srcTypes =>
      match acc.get? direction with
      | none => acc.set direction srcTypes
      | some dstTypes => acc.set direction (mergePTypes ord dstTypes srcTypes)) dst

/-- Modelled from the spec: the state level of `mergo.Merge` with `WithOverride`.  A state
absent from `dst` receives the table of `src`; one present is merged direction by
direction.  Beyond the spec's words, the library's treatment of nil is kept: with
`WithOverride` a nil inner map of `src` is stored over what `dst` holds for that state. -/
def mergeStates (ord : IterOrder) (dst : PacketsTable) (src : OverridesTable) : PacketsTable :=
  src.range ord (fun acc state srcDirs =>
    match srcDirs with
    | none => acc.set state GoMap.empty
    | some srcDirs =>
      match acc.get? state with
      | none => acc.set state srcDirs.asTable
      | some dstDirs => acc.set state (mergeDirections ord dstDirs srcDirs)) dst

/-- Modelled from the spec: `mergo.Merge(&dst, src, mergo.WithOverride)` as the pair of the
merged destination and the returned error.  The library is a generic merge of two values of
one type: it reports an error for a destination that is no pointer, for nil or unsupported
arguments and for arguments of different types, none of which these two arguments are, and
it does not look at which IDs the tables hold.  So the error is always nil. -/
def mergoMerge (ord : IterOrder) (dst : PacketsTable) (src : OverridesTable) :
    PacketsTable × Option GoError :=
  (mergeStates ord dst src, none)

/-- The innermost loop of lines 141-143: the ID → type map of one (state, direction). -/
def invertPTypes (ord : IterOrder) (pTypes : GoMap PacketType Int) : GoMap Int PacketType :=
  pTypes.range ord (fun acc pType pID => acc.set pID pType) GoMap.empty

/-- The loop of lines 139-144. -/
def invertDirections (ord : IterOrder) (directions : GoMap Direction (GoMap PacketType Int)) :
    GoMap Direction (GoMap Int PacketType) :=
  directions.range ord (fun acc direction pTypes => acc.set direction (invertPTypes ord pTypes))
    GoMap.empty

/-- The loop of lines 137-145: the table stored as `packetsByID[proto]`. -/
def invertStates (ord : IterOrder) (states : PacketsTable) : PacketsByIDTable :=
  states.range ord (fun acc state directions => acc.set state (invertDirections ord directions))
    GoMap.empty

/-- Go `RegisterPackets`: the registry after the call and the returned error.  A missing
`packets[protocol.Unknown]` reads as a nil map, over which the copy loop does nothing. -/
def RegisterPackets (ord : IterOrder) (c : ProtocolConsts) (reg : Registry) (proto : Protocol)
    (packetsMap : OverridesTable) : Registry × Option GoError :=
  let newPacketsMap := copyStates ord ((reg.packets.get? c.Unknown).getD GoMap.empty)
  match mergoMerge ord newPacketsMap packetsMap with
  | (_, some err) => (reg, some err)
  | (newPacketsMap, none) =>
    ({ packets := reg.packets.set proto newPacketsMap,
       packetsByID := reg.packetsByID.set proto (invertStates ord newPacketsMap) }, none)

/-- Go `copyPackets`.  A missing `packets[src]` reads as a nil map, which behaves as an empty
one in every lookup. -/
def copyPackets (reg : Registry) (src : Protocol) (destinations : List Protocol) : Registry :=
  destinations.foldl (fun r dst =>
    { packets := r.packets.set dst ((r.packets.get? src).getD GoMap.empty),
      packetsByID := r.packetsByID.set dst ((r.packetsByID.get? src).getD GoMap.empty) }) reg

/-- The override map `init` passes to `RegisterPackets` (registry.go, lines 72-85). -/
def initOverrides : OverridesTable :=
  GoMap.literal [
    (State.Play, some (GoMap.literal [
      (Direction.ClientBound, some (GoMap.literal [
        (PacketType.PacketPlayOutServerDifficulty, 0x0D),
        (PacketType.PacketPlayOutDisconnect, 0x19),
        (PacketType.PacketPlayOutKeepAlive, 0x1F),
        (PacketType.PacketPlayOutJoinGame, 0x24),
        (PacketType.PacketPlayOutPositionAndLook, 0x34)])),
      (Direction.ServerBound, some (GoMap.literal [
        (PacketType.PacketPlayInKeepAlive, 0x10)]))]))]

/-- Go `init`: the registry once the package is initialized, or `none` when `init` panics on
an error of `RegisterPackets`. -/
def init (ord : IterOrder) (c : ProtocolConsts) : Option Registry :=
  match RegisterPackets ord c (staticRegistry c) c.V1_16 initOverrides with
  | (_, some _) => none
  | (reg, none) => some (copyPackets reg c.V1_16 [c.V1_16_1, c.V1_16_2, c.V1_16_3, c.V1_16_4])

/-- An override map that gives two packet types of (Play, ClientBound) the one ID 0x0D. -/
def collidingOverrides : OverridesTable :=
  GoMap.literal [
    (State.Play, some (GoMap.literal [
      (Direction.ClientBound, some (GoMap.literal [
        (PacketType.PacketPlayOutServerDifficulty, 0x0D),
        (PacketType.PacketPlayOutKeepAlive, 0x0D)]))]))]

/-- An override map whose inner map for Status is nil:
`map[protocol.State]map[protocol.Direction]map[reflect.Type]int32{protocol.Status: nil}`. -/
def nilStatusOverrides : OverridesTable :=
  GoMap.literal [(State.Status, none)]

/-- The versions of Minecraft 1.16 to 1.16.4 with their protocol numbers, and -1 for
`Unknown`: one possible value of the constants, used to evaluate the definitions. -/
def sampleConsts : ProtocolConsts :=
  { Unknown := -1, V1_16 := 735, V1_16_1 := 736, V1_16_2 := 751, V1_16_3 := 753, V1_16_4 := 754 }


/-! ## PacketPlayOutServerDifficulty.go -/

/-- Modelled from the spec: `bytes.Buffer` of `pkg/util/bytes`, which is not among the
sources at hand: "a cursor over an in-memory byte sequence with independent read and write
positions".  `data` is the byte sequence, `readPos` the read position; the write position is
the end of `data`. -/
structure Buffer where
  data : List Nat
  readPos : Nat
  deriving DecidableEq

/-- Modelled from the spec: a new buffer, with no byte written and none read. -/
def Buffer.empty : Buffer := { data := [], readPos := 0 }

/-- The bytes not read yet. -/
def Buffer.unread (b : Buffer) : List Nat := b.data.drop b.readPos

/-- Modelled from the spec: `ReadUint8`, a "1-byte primitive": "every read accessor fails
with an `Underrun` error when fewer bytes remain than the type requires", and a failed read
leaves the cursor where it was.  The triple is the value, the error and the buffer after the
call. -/
def Buffer.ReadUint8 (b : Buffer) : Nat × Option GoError × Buffer :=
  match b.data.get? b.readPos with
  | some byte => (byte, none, { b with readPos := b.readPos + 1 })
  | none => (0, some GoError.underrun, b)

/-- Modelled from the spec: how `ReadBool` turns a byte into a bool.  The spec says "bool
encodes as 0x00/0x01" and is silent on other bytes, so the decoding is a parameter that is
fixed on those two bytes only. -/
structure BoolDecoding where
  decode : Nat → Bool
  decode_zero : decode 0 = false
  decode_one : decode 1 = true

/-- The decoding that reads every nonzero byte as true. -/
def BoolDecoding.nonzero : BoolDecoding :=
  { decode := fun b => decide (b ≠ 0), decode_zero := by decide, decode_one := by decide }

/-- Modelled from the spec: `ReadBool`, a "1-byte primitive" that fails as `ReadUint8`
does. -/
def Buffer.ReadBool (dec : BoolDecoding) (b : Buffer) : Bool × Option GoError × Buffer :=
  match b.data.get? b.readPos with
  | some byte => (dec.decode byte, none, { b with readPos := b.readPos + 1 })
  | none => (false, some GoError.underrun, b)

/-- Modelled from the spec: `WriteUint8` on a growable buffer, which "must not fail on
write": the byte is appended.  The pair is the error and the buffer after the call. -/
def Buffer.WriteUint8 (b : Buffer) (v : Nat) : Option GoError × Buffer :=
  (none, { b with data := b.data ++ [v % 256] })

/-- Modelled from the spec: `WriteBool`, "bool encodes as 0x00/0x01". -/
def Buffer.WriteBool (b : Buffer) (v : Bool) : Option GoError × Buffer :=
  (none, { b with data := b.data ++ [if v then 0x01 else 0x00] })

/-- Go `(*PacketPlayOutServerDifficulty).GetID`. -/
def PacketPlayOutServerDifficulty.GetID (reg : Registry) (packet : PacketPlayOutServerDifficulty)
    (proto : Protocol) : Int × Option GoError :=
  GetPacketID reg proto State.Play Direction.ClientBound (Packet.serverDifficulty packet)

/-- Go `(*PacketPlayOutServerDifficulty).Read`: the returned error, the packet and the
buffer after the call. -/
def PacketPlayOutServerDifficulty.Read (dec : BoolDecoding)
    (packet : PacketPlayOutServerDifficulty) (_proto : Protocol) (buffer : Buffer) :
    Option GoError × PacketPlayOutServerDifficulty × Buffer :=
  match buffer.ReadUint8 with
  | (_, some err, buffer) => (some err, packet, buffer)
  | (difficulty, none, buffer) =>
    let packet := { packet with Difficulty := difficulty }
    match buffer.ReadBool dec with
    | (_, some err, buffer) => (some err, packet, buffer)
    | (locked, none, buffer) =>
      let packet := { packet with Locked := locked }
      (none, packet, buffer)

/-- Go `(*PacketPlayOutServerDifficulty).Write`: the returned error and the buffer after the
call. -/
def PacketPlayOutServerDifficulty.Write (packet : PacketPlayOutServerDifficulty)
    (_proto : Protocol) (buffer : Buffer) : Option GoError × Buffer :=
  match buffer.WriteUint8 packet.Difficulty with
  | (some err, buffer) => (some err, buffer)
  | (none, buffer) =>
    match buffer.WriteBool packet.Locked with
    | (some err, buffer) => (some err, buffer)
    | (none, buffer) => (none, buffer)

/-! ## Reading the tables -/

/-- The table `packets[proto]`, the nil map read as the empty one. -/
def Registry.table (reg : Registry) (proto : Protocol) : PacketsTable :=
  (reg.packets.get? proto).getD GoMap.empty

/-- The table `packetsByID[proto]`, the nil map read as the empty one. -/
def Registry.tableByID (reg : Registry) (proto : Protocol) : PacketsByIDTable :=
  (reg.packetsByID.get? proto).getD GoMap.empty

/-- The ID a table holds at (state, direction, packet type), when it holds one. -/
def lookupID (t : PacketsTable) (state : State) (direction : Direction) (pType : PacketType) :
    Option Int :=
  ((t.get? state).bind (fun directions => directions.get? direction)).bind
    (fun pTypes => pTypes.get? pType)

/-- The packet type a table holds at (state, direction, ID), when it holds one. -/
def lookupType (t : PacketsByIDTable) (state : State) (direction : Direction) (id : Int) :
    Option PacketType :=
  ((t.get? state).bind (fun directions => directions.get? direction)).bind
    (fun pIDs => pIDs.get? id)

/-- Whether a table has an inner table for the state. -/
def hasState {W : Type} (t : GoMap State W) (state : State) : Bool :=
  (t.get? state).isSome

/-- Whether a table has an inner table for the (state, direction). -/
def hasDirection {W : Type} (t : GoMap State (GoMap Direction W)) (state : State)
    (direction : Direction) : Bool :=
  ((t.get? state).bind (fun directions => directions.get? direction)).isSome

/-- The result pair of `GetPacketID` for a lookup outcome. -/
def idResult : Option Int → Int × Option GoError
  | some id => (id, none)
  | none => (0, some GoError.noPacketIDFound)

/-- The result pair of `GetPacketByID` for a lookup outcome. -/
def packetResult (id : Int) : Option PacketType → Option Packet × Option GoError
  | some pType => (some (newPacket pType), none)
  | none => (none, some (GoError.noPacketFoundWithID id))

/-- The table `mergeDirections` stores for a direction of `src`, given what the destination
held for that direction. -/
def mergedDirectionEntry (ord : IterOrder) (old : Option (GoMap PacketType Int))
    (srcTypes : Option (GoMap PacketType Int)) : GoMap PacketType Int :=
  match srcTypes with
  | none => GoMap.empty
  | some srcTypes =>
    match old with
    | none => srcTypes
    | some dstTypes => mergePTypes ord dstTypes srcTypes

/-- The table `mergeStates` stores for a state of `src`, given what the destination held for
that state. -/
def mergedStateEntry (ord : IterOrder) (old : Option (GoMap Direction (GoMap PacketType Int)))
    (srcDirs : Option OverrideDirections) : GoMap Direction (GoMap PacketType Int) :=
  match srcDirs with
  | none => GoMap.empty
  | some srcDirs =>
    match old with
    | none => srcDirs.asTable
    | some dstDirs => mergeDirections ord dstDirs srcDirs

/-- What an override map says about (state, direction, packet type). -/
inductive OverrideEntry
  /-- The override has no entry there, and no nil inner map on the way. -/
  | absent
  /-- The override holds a nil inner map for the state or for the (state, direction). -/
  | nilTable
  /-- The override holds this ID. -/
  | id (id : Int)
  deriving DecidableEq

/-- What the override map `o` says about (state, direction, packet type). -/
def overrideAt (o : OverridesTable) (state : State) (direction : Direction)
    (pType : PacketType) : OverrideEntry :=
  match o.get? state with
  | none => OverrideEntry.absent
  | some none => OverrideEntry.nilTable
  | some (some directions) =>
    match directions.get? direction with
    | none => OverrideEntry.absent
    | some none => OverrideEntry.nilTable
    | some (some pTypes) =>
      match pTypes.get? pType with
      | none => OverrideEntry.absent
      | some id => OverrideEntry.id id

/-- The table `RegisterPackets` builds: the copy of the baseline `packets[protocol.Unknown]`
with the overrides merged on top. -/
def mergedTable (ord : IterOrder) (c : ProtocolConsts) (reg : Registry)
    (packetsMap : OverridesTable) : PacketsTable :=
  mergeStates ord (copyStates ord (reg.table c.Unknown)) packetsMap

/-- Whether, in every (state, direction) table of `t`, no ID is stored twice. -/
def tableIDsDistinct (t : PacketsTable) : Bool :=
  t.entries.all (fun e => e.2.entries.all (fun e' =>
    decide ((e'.2.entries.map Prod.snd).Nodup)))

/-- The table of V1_16 as `RegisterPackets` builds it from the static baseline and the
overrides of `init` when every loop visits the entries in stored order. -/
def mergedReference : PacketsTable :=
  mergeStates IterOrder.stored (copyStates IterOrder.stored baselinePackets) initOverrides

/-! ## server.go

The two methods are embedded as sequential code: the state is the `Server` struct, and what
a call does outside the struct is recorded, in order, as a list of `Effect`s.  Calls to the
logger are left out.  The goroutines `Start` launches are recorded as effects; of their
behaviour only one thing is kept, that the first one receives once from `server.shutdown`,
because the send in `Stop` waits for that receiver. -/

/-- Modelled from the spec: the `Config` of package server, whose declaration is not among
the sources at hand; `Start` reads its `Host` and `Port`. -/
structure Config where
  Host : String
  Port : Int

/-- A non-nil `net.Listener`, told apart by a number. -/
structure Listener where
  handle : Nat
  deriving DecidableEq

/-- Modelled from the spec: a `*Player`, the "live session" kept by "session identity".  The
type is not among the sources at hand; only its identity is kept. -/
structure Player where
  uniqueID : Nat
  deriving DecidableEq

/-- The non-nil `error` values `Start` and `Stop` return. -/
inductive ServerError
  /-- Go `ErrServerRunning = errors.New("server already running")` -/
  | ErrServerRunning
  /-- Go `ErrServerStopped = errors.New("server already stopped")` -/
  | ErrServerStopped
  /-- The error `net.Listen` returned. -/
  | listenFailed (msg : String)
  deriving DecidableEq

/-- What a call does outside the `Server` struct. -/
inductive Effect
  /-- Go `net.Listen(network, address)` -/
  | listen (network address : String)
  /-- Go `go func() { shutdown = <-server.shutdown }()` -/
  | goShutdownReceiver
  /-- The goroutine with the accept loop over the listener. -/
  | goAcceptLoop (listener : Listener)
  /-- Go `player.Kick(reason)` -/
  | kick (player : Player) (reason : String)
  /-- Go `server.shutdown <- value` -/
  | shutdownSend (value : Bool)
  /-- Go `listener.Close()` -/
  | listenerClose (listener : Listener)
  deriving DecidableEq

/-- Go `type Server struct`.  The channel `shutdown` is unbuffered and holds nothing; what
matters of it is how many goroutines launched by `Start` have yet to receive from it,
`shutdownReceivers`.  `players` is the `sync.Map` from unique ID to player. -/
structure Server where
  config : Config
  listener : Option Listener
  shutdownReceivers : Nat
  players : GoMap Nat Player

/-- The outcome of a call: the server after it, its effects in order, and the error it
returned, with `none` for a call that never returns and `some none` for a nil error. -/
structure Outcome where
  server : Server
  effects : List Effect
  returned : Option (Option ServerError)

/-- Go `NewServer`. -/
def NewServer (config : Config) : Server :=
  { config := config, listener := none, shutdownReceivers := 0, players := GoMap.empty }

/-- Go `net.JoinHostPort`: a host with a colon in it is put in brackets. -/
def JoinHostPort (host port : String) : String :=
  if host.contains ':' then "[" ++ host ++ "]:" ++ port else host ++ ":" ++ port

/-- Go `(*Server).Start`, up to the launch of the two goroutines.  `netListen` is
`net.Listen`, which answers with a listener or with an error. -/
def Server.Start (netListen : String → String → Except String Listener) (server : Server) :
    Outcome :=
  match server.listener with
  | some _ => { server := server, effects := [], returned := some (some .ErrServerRunning) }
  | none =>
    let bind := JoinHostPort server.config.Host (toString server.config.Port)
    match netListen "tcp" bind with
    | .error msg =>
      { server := server, effects := [.listen "tcp" bind],
        returned := some (some (.listenFailed msg)) }
    | .ok listener =>
      { server := { server with listener := some listener,
                                shutdownReceivers := server.shutdownReceivers + 1 },
        effects := [.listen "tcp" bind, .goShutdownReceiver, .goAcceptLoop listener],
        returned := some none }

/-- Go `(*Server).ForEachPlayer`: `fn` is called on every player of the map, in the order
`sync.Map.Range` visits them, which is not specified.  The result is the effects of the
calls. -/
def Server.ForEachPlayer (ord : IterOrder) (server : Server) (fn : Player → List Effect) :
    List Effect :=
  server.players.range ord (fun acc _ value => acc ++ fn value) []

/-- Go `(*Server).Stop`.  The send on the unbuffered channel returns when a goroutine is
there to receive; without one the call never returns.  The error of `Close` is only
logged. -/
def Server.Stop (ord : IterOrder) (server : Server) : Outcome :=
  match server.listener with
  | none => { server := server, effects := [], returned := some (some .ErrServerStopped) }
  | some listener =>
    let kicks := server.ForEachPlayer ord
      (fun player => [Effect.kick player "server is shutting down"])
    match server.shutdownReceivers with
    | 0 => { server := server, effects := kicks, returned := none }
    | n + 1 =>
      { server := { server with listener := none, shutdownReceivers := n },
        effects := kicks ++ [.shutdownSend true, .listenerClose listener],
        returned := some none }

/-- The servers a program can hold: made by `NewServer` and then taken through `Start` and
`Stop` calls that return, with the player map changed in any way in between (players are
stored and deleted by the connection handlers). -/
inductive Server.Reachable : Server → Prop
  | newServer (config : Config) : Server.Reachable (NewServer config)
  | start (netListen : String → String → Except String Listener) (server : Server) :
      Server.Reachable server → Server.Reachable (server.Start netListen).server
  | stop (ord : IterOrder) (server : Server) :
      Server.Reachable server → (server.Stop ord).returned ≠ none →
      Server.Reachable (server.Stop ord).server
  | players (server : Server) (players : GoMap Nat Player) :
      Server.Reachable server → Server.Reachable { server with players := players }

/-- A `net.Listen` that answers every call with the listener numbered 7. -/
def sampleListen : String → String → Except String Listener :=
  fun _ _ => Except.ok { handle := 7 }

/-- A server made by `NewServer` for localhost:25565, started with `sampleListen`, with two
players stored afterwards. -/
def sampleListeningServer : Server :=
  { ((NewServer { Host := "localhost", Port := 25565 }).Start sampleListen).server with
    players := GoMap.literal [(1, { uniqueID := 1 }), (2, { uniqueID := 2 })] }

/-! ## Lemmas on Go maps -/

theorem lookupEntries_setEntries {K V : Type} [DecidableEq K] (k k' : K) (v : V)
    (l : List (K × V)) :
    lookupEntries k' (setEntries k v l) = if k' = k then some v else lookupEntries k' l := by
  induction l with
  | nil =>
    by_cases h : k' = k
    · subst h
      simp [setEntries, lookupEntries]
    · have h' : ¬ k = k' := fun e => h e.symm
      simp [setEntries, lookupEntries, h, h']
  | cons e rest ih =>
    obtain ⟨k0, v0⟩ := e
    by_cases h0 : k0 = k
    · subst h0
      by_cases h : k' = k0
      · subst h
        simp [setEntries, lookupEntries]
      · have h' : ¬ k0 = k' := fun e => h e.symm
        simp [setEntries, lookupEntries, h, h']
    · by_cases h : k0 = k'
      · subst h
        simp [setEntries, lookupEntries, h0]
      · simp [setEntries, lookupEntries, h0, h, ih]

theorem lookupEntries_eq_none {K V : Type} [DecidableEq K] (k : K) (l : List (K × V))
    (h : k ∉ l.map Prod.fst) : lookupEntries k l = none := by
  induction l with
  | nil => rfl
  | cons e rest ih =>
    obtain ⟨k0, v0⟩ := e
    simp only [List.map_cons, List.mem_cons, not_or] at h
    have h0 : ¬ k0 = k := fun e => h.1 e.symm
    simp [lookupEntries, h0, ih h.2]

theorem mem_of_lookupEntries {K V : Type} [DecidableEq K] (k : K) (v : V) (l : List (K × V))
    (h : lookupEntries k l = some v) : (k, v) ∈ l := by
  induction l with
  | nil => simp [lookupEntries] at h
  | cons e rest ih =>
    obtain ⟨k0, v0⟩ := e
    by_cases h0 : k0 = k
    · subst h0
      simp only [lookupEntries, if_true, Option.some.injEq] at h
      subst h
      exact List.mem_cons_self _ _
    · simp only [lookupEntries, h0, if_false] at h
      exact List.mem_cons_of_mem _ (ih h)

theorem lookupEntries_of_mem {K V : Type} [DecidableEq K] (k : K) (v : V) (l : List (K × V))
    (hn : (l.map Prod.fst).Nodup) (h : (k, v) ∈ l) : lookupEntries k l = some v := by
  induction l with
  | nil => simp at h
  | cons e rest ih =>
    obtain ⟨k0, v0⟩ := e
    simp only [List.map_cons, List.nodup_cons] at hn
    rcases List.mem_cons.mp h with h | h
    · cases h
      simp [lookupEntries]
    · have hk : k ∈ rest.map Prod.fst := List.mem_map.mpr ⟨(k, v), h, rfl⟩
      have h0 : ¬ k0 = k := fun e => hn.1 (e ▸ hk)
      simp [lookupEntries, h0, ih hn.2 h]

/-- On lists with distinct keys a lookup does not depend on the order of the entries. -/
theorem lookupEntries_perm {K V : Type} [DecidableEq K] (k : K) (l l' : List (K × V))
    (hn : (l.map Prod.fst).Nodup) (hp : l'.Perm l) : lookupEntries k l' = lookupEntries k l := by
  have hn' : (l'.map Prod.fst).Nodup := (hp.map Prod.fst).nodup_iff.mpr hn
  cases h : lookupEntries k l with
  | some v => exact lookupEntries_of_mem k v l' hn' (hp.mem_iff.mpr (mem_of_lookupEntries k v l h))
  | none =>
    cases h' : lookupEntries k l' with
    | none => rfl
    | some v =>
      have := lookupEntries_of_mem k v l hn (hp.mem_iff.mp (mem_of_lookupEntries k v l' h'))
      rw [h] at this
      cases this


namespace GoMap

variable {K V : Type} [DecidableEq K]

theorem get?_empty (k : K) : (empty : GoMap K V).get? k = none := rfl

theorem get?_set (m : GoMap K V) (k k' : K) (v : V) :
    (m.set k v).get? k' = if k' = k then some v else m.get? k' :=
  lookupEntries_setEntries k k' v m.entries

theorem get?_set_self (m : GoMap K V) (k : K) (v : V) : (m.set k v).get? k = some v := by
  rw [get?_set, if_pos rfl]

theorem get?_set_of_ne (m : GoMap K V) (k k' : K) (v : V) (h : k' ≠ k) :
    (m.set k v).get? k' = m.get? k' := by
  rw [get?_set, if_neg h]

/-- A loop that stores, for each entry of a list with distinct keys, a value under the
entry's own key: what the result holds under `k`. -/
theorem get?_foldl_set {W : Type} (h : Option W → K → V → W) (l : List (K × V))
    (hn : (l.map Prod.fst).Nodup) (init : GoMap K W) (k : K) :
    (l.foldl (fun acc e => acc.set e.1 (h (acc.get? e.1) e.1 e.2)) init).get? k =
      match lookupEntries k l with
      | some v => some (h (init.get? k) k v)
      | none => init.get? k := by
  induction l generalizing init with
  | nil => rfl
  | cons e rest ih =>
    obtain ⟨k0, v0⟩ := e
    simp only [List.map_cons, List.nodup_cons] at hn
    rw [List.foldl_cons, ih hn.2]
    by_cases h0 : k0 = k
    · subst h0
      rw [lookupEntries_eq_none k0 rest hn.1]
      simp [lookupEntries, get?_set_self]
    · have h1 : k ≠ k0 := fun e => h0 e.symm
      simp only [lookupEntries, h0, if_false, get?_set_of_ne _ _ _ _ h1]

/-- The same for a `range` loop over a map, in any iteration order. -/
theorem get?_range_set {W : Type} (ord : IterOrder) (h : Option W → K → V → W)
    (m : GoMap K V) (init : GoMap K W) (k : K) :
    (m.range ord (fun acc k v => acc.set k (h (acc.get? k) k v)) init).get? k =
      match m.get? k with
      | some v => some (h (init.get? k) k v)
      | none => init.get? k := by
  have hp := ord.perm m.entries
  have hn : ((ord.shuffle m.entries).map Prod.fst).Nodup :=
    (hp.map Prod.fst).nodup_iff.mpr m.nodup
  unfold range
  rw [get?_foldl_set h _ hn init k, lookupEntries_perm k m.entries _ m.nodup hp]
  rfl

omit [DecidableEq K] in
/-- Inverting a list of (key, value) entries: what the result holds under a value comes
from an entry of the list or was there before. -/
theorem get?_foldl_invert_sound (l : List (K × V)) [DecidableEq V] (init : GoMap V K)
    (v : V) (k : K) (h : (l.foldl (fun acc e => acc.set e.2 e.1) init).get? v = some k) :
    (k, v) ∈ l ∨ init.get? v = some k := by
  induction l generalizing init with
  | nil => exact Or.inr h
  | cons e rest ih =>
    obtain ⟨k0, v0⟩ := e
    rw [List.foldl_cons] at h
    rcases ih _ h with h' | h'
    · exact Or.inl (List.mem_cons_of_mem _ h')
    · rw [get?_set] at h'
      by_cases hv : v = v0
      · subst hv
        rw [if_pos rfl] at h'
        cases h'
        exact Or.inl (List.mem_cons_self _ _)
      · rw [if_neg hv] at h'
        exact Or.inr h'

omit [DecidableEq K] in
/-- Inverting a list: a value that no entry carries keeps what was stored under it. -/
theorem get?_foldl_invert_absent (l : List (K × V)) [DecidableEq V] (init : GoMap V K)
    (v : V) (h : ∀ k, (k, v) ∉ l) :
    (l.foldl (fun acc e => acc.set e.2 e.1) init).get? v = init.get? v := by
  induction l generalizing init with
  | nil => rfl
  | cons e rest ih =>
    obtain ⟨k0, v0⟩ := e
    rw [List.foldl_cons, ih _ (fun k hk => h k (List.mem_cons_of_mem _ hk))]
    have hv : v ≠ v0 := fun e => h k0 (e ▸ List.mem_cons_self _ _)
    exact get?_set_of_ne _ _ _ _ hv

omit [DecidableEq K] in
/-- Inverting a list: a value carried by the entries of one key only ends up with that
key. -/
theorem get?_foldl_invert_of_unique (l : List (K × V)) [DecidableEq V] (init : GoMap V K)
    (v : V) (k : K) (hmem : (k, v) ∈ l) (huniq : ∀ k', (k', v) ∈ l → k' = k) :
    (l.foldl (fun acc e => acc.set e.2 e.1) init).get? v = some k := by
  induction l generalizing init with
  | nil => simp at hmem
  | cons e rest ih =>
    obtain ⟨k0, v0⟩ := e
    rw [List.foldl_cons]
    by_cases hrest : (k, v) ∈ rest
    · exact ih _ hrest (fun k' hk' => huniq k' (List.mem_cons_of_mem _ hk'))
    · have he : (k, v) = (k0, v0) := by
        rcases List.mem_cons.mp hmem with h | h
        · exact h
        · exact absurd h hrest
      cases he
      have hnone : ∀ k', (k', v) ∉ rest := by
        intro k' hk'
        have := huniq k' (List.mem_cons_of_mem _ hk')
        subst this
        exact hrest hk'
      rw [get?_foldl_invert_absent rest _ v hnone]
      exact get?_set_self _ _ _

omit [DecidableEq K] in
/-- Inverting a list: a value that some entry carries, or that was stored before, is stored
afterwards. -/
theorem get?_foldl_invert_isSome (l : List (K × V)) [DecidableEq V] (init : GoMap V K)
    (v : V) (h : (∃ k, (k, v) ∈ l) ∨ ∃ k, init.get? v = some k) :
    ∃ k, (l.foldl (fun acc e => acc.set e.2 e.1) init).get? v = some k := by
  induction l generalizing init with
  | nil =>
    rcases h with ⟨k, hk⟩ | h
    · simp at hk
    · exact h
  | cons e rest ih =>
    obtain ⟨k0, v0⟩ := e
    rw [List.foldl_cons]
    apply ih
    by_cases hv : v = v0
    · subst hv
      exact Or.inr ⟨k0, get?_set_self _ _ _⟩
    · rcases h with ⟨k, hk⟩ | ⟨k, hk⟩
      · rcases List.mem_cons.mp hk with h' | h'
        · cases h'
          exact absurd rfl hv
        · exact Or.inl ⟨k, h'⟩
      · exact Or.inr ⟨k, by rw [get?_set_of_ne _ _ _ _ hv]; exact hk⟩

theorem mem_entries_iff (m : GoMap K V) (k : K) (v : V) :
    (k, v) ∈ m.entries ↔ m.get? k = some v :=
  ⟨lookupEntries_of_mem k v m.entries m.nodup, mem_of_lookupEntries k v m.entries⟩

theorem mem_shuffle_iff (ord : IterOrder) (m : GoMap K V) (k : K) (v : V) :
    (k, v) ∈ ord.shuffle m.entries ↔ m.get? k = some v := by
  rw [(ord.perm m.entries).mem_iff, mem_entries_iff]

end GoMap


/-! ## Lemmas on the registry -/

theorem typeOf_newPacket (t : PacketType) : Packet.typeOf (newPacket t) = t := by
  cases t <;> rfl

theorem GetPacketID_eq (reg : Registry) (proto : Protocol) (state : State)
    (direction : Direction) (packet : Packet) :
    GetPacketID reg proto state direction packet =
      idResult (lookupID (reg.table proto) state direction (Packet.typeOf packet)) := by
  unfold GetPacketID Registry.table lookupID
  cases h1 : reg.packets.get? proto with
  | none => simp [GoMap.get?_empty, idResult]
  | some states =>
    cases h2 : states.get? state with
    | none => simp [h2, idResult]
    | some directions =>
      cases h3 : directions.get? direction with
      | none => simp [h2, h3, idResult]
      | some pTypes =>
        cases h4 : pTypes.get? (Packet.typeOf packet) <;> simp [h2, h3, h4, idResult]

theorem GetPacketByID_eq (reg : Registry) (proto : Protocol) (state : State)
    (direction : Direction) (id : Int) :
    GetPacketByID reg proto state direction id =
      packetResult id (lookupType (reg.tableByID proto) state direction id) := by
  unfold GetPacketByID Registry.tableByID lookupType
  cases h1 : reg.packetsByID.get? proto with
  | none => simp [GoMap.get?_empty, packetResult]
  | some states =>
    cases h2 : states.get? state with
    | none => simp [h2, packetResult]
    | some directions =>
      cases h3 : directions.get? direction with
      | none => simp [h2, h3, packetResult]
      | some pIDs =>
        cases h4 : pIDs.get? id <;> simp [h2, h3, h4, packetResult]

theorem idResult_eq_ok (o : Option Int) (id : Int) : idResult o = (id, none) ↔ o = some id := by
  cases o <;> simp [idResult]

theorem packetResult_eq_ok (id : Int) (o : Option PacketType) (p : Packet) :
    packetResult id o = (some p, none) ↔ ∃ t, o = some t ∧ p = newPacket t := by
  cases o with
  | none => simp [packetResult]
  | some t =>
    simp only [packetResult, Prod.mk.injEq, Option.some.injEq, and_true]
    constructor
    · intro h
      exact ⟨t, rfl, h.symm⟩
    · rintro ⟨t', ht, hp⟩
      cases ht
      exact hp.symm

theorem get?_copyPTypes (ord : IterOrder) (pTypes : GoMap PacketType Int) (k : PacketType) :
    (copyPTypes ord pTypes).get? k = pTypes.get? k := by
  have h := GoMap.get?_range_set ord (fun (_ : Option Int) (_ : PacketType) (v : Int) => v)
    pTypes GoMap.empty k
  unfold copyPTypes
  rw [h]
  cases pTypes.get? k <;> rfl

theorem get?_copyDirections (ord : IterOrder) (directions : GoMap Direction (GoMap PacketType Int))
    (d : Direction) :
    (copyDirections ord directions).get? d = (directions.get? d).map (copyPTypes ord) := by
  have h := GoMap.get?_range_set ord
    (fun (_ : Option (GoMap PacketType Int)) (_ : Direction) (v : GoMap PacketType Int) =>
      copyPTypes ord v) directions GoMap.empty d
  unfold copyDirections
  rw [h]
  cases directions.get? d <;> rfl

theorem get?_copyStates (ord : IterOrder) (states : PacketsTable) (s : State) :
    (copyStates ord states).get? s = (states.get? s).map (copyDirections ord) := by
  have h := GoMap.get?_range_set ord
    (fun (_ : Option (GoMap Direction (GoMap PacketType Int))) (_ : State)
      (v : GoMap Direction (GoMap PacketType Int)) => copyDirections ord v)
    states GoMap.empty s
  unfold copyStates
  rw [h]
  cases states.get? s <;> rfl

/-- The deep copy holds, at every level, exactly what the copied table holds. -/
theorem lookupID_copyStates (ord : IterOrder) (t : PacketsTable) (s : State) (d : Direction)
    (k : PacketType) : lookupID (copyStates ord t) s d k = lookupID t s d k := by
  unfold lookupID
  rw [get?_copyStates]
  cases t.get? s with
  | none => rfl
  | some directions =>
    simp only [Option.map_some', Option.some_bind, get?_copyDirections]
    cases directions.get? d with
    | none => rfl
    | some pTypes => simp only [Option.map_some', Option.some_bind, get?_copyPTypes]

theorem hasState_copyStates (ord : IterOrder) (t : PacketsTable) (s : State) :
    hasState (copyStates ord t) s = hasState t s := by
  unfold hasState
  rw [get?_copyStates]
  cases t.get? s <;> rfl

theorem hasDirection_copyStates (ord : IterOrder) (t : PacketsTable) (s : State)
    (d : Direction) : hasDirection (copyStates ord t) s d = hasDirection t s d := by
  unfold hasDirection
  rw [get?_copyStates]
  cases t.get? s with
  | none => rfl
  | some directions =>
    simp only [Option.map_some', Option.some_bind, get?_copyDirections]
    cases directions.get? d <;> rfl

theorem get?_mergePTypes (ord : IterOrder) (dst src : GoMap PacketType Int) (k : PacketType) :
    (mergePTypes ord dst src).get? k =
      match src.get? k with
      | some id => some id
      | none => dst.get? k := by
  have h := GoMap.get?_range_set ord (fun (_ : Option Int) (_ : PacketType) (v : Int) => v)
    src dst k
  unfold mergePTypes
  rw [h]
  cases src.get? k <;> rfl

theorem GoMap.get?_mapValues {K V W : Type} [DecidableEq K] (m : GoMap K V) (f : V → W)
    (k : K) : (m.mapValues f).get? k = (m.get? k).map f := by
  unfold GoMap.mapValues GoMap.get?
  show lookupEntries k (m.entries.map (fun e => (e.1, f e.2))) = _
  induction m.entries with
  | nil => rfl
  | cons e rest ih =>
    obtain ⟨k0, v0⟩ := e
    by_cases h : k0 = k
    · simp [lookupEntries, h]
    · simp [lookupEntries, h, ih]

theorem get?_mergeDirections (ord : IterOrder) (dst : GoMap Direction (GoMap PacketType Int))
    (src : OverrideDirections) (d : Direction) :
    (mergeDirections ord dst src).get? d =
      match src.get? d with
      | some srcTypes => some (mergedDirectionEntry ord (dst.get? d) srcTypes)
      | none => dst.get? d := by
  have h := GoMap.get?_range_set ord
    (fun (old : Option (GoMap PacketType Int)) (_ : Direction)
      (v : Option (GoMap PacketType Int)) => mergedDirectionEntry ord old v) src dst d
  have hbody : (fun (acc : GoMap Direction (GoMap PacketType Int)) (direction : Direction)
      (srcTypes : Option (GoMap PacketType Int)) =>
        match srcTypes with
        | none => acc.set direction GoMap.empty
        | some srcTypes =>
          match acc.get? direction with
          | none => acc.set direction srcTypes
          | some dstTypes => acc.set direction (mergePTypes ord dstTypes srcTypes)) =
      (fun acc direction srcTypes =>
        acc.set direction (mergedDirectionEntry ord (acc.get? direction) srcTypes)) := by
    funext acc direction srcTypes
    cases srcTypes with
    | none => simp [mergedDirectionEntry]
    | some srcTypes => cases hg : acc.get? direction <;> simp [mergedDirectionEntry]
  unfold mergeDirections
  rw [hbody, h]
  cases src.get? d <;> rfl

theorem get?_mergeStates (ord : IterOrder) (dst : PacketsTable) (src : OverridesTable)
    (s : State) :
    (mergeStates ord dst src).get? s =
      match src.get? s with
      | some srcDirs => some (mergedStateEntry ord (dst.get? s) srcDirs)
      | none => dst.get? s := by
  have h := GoMap.get?_range_set ord
    (fun (old : Option (GoMap Direction (GoMap PacketType Int))) (_ : State)
      (v : Option OverrideDirections) => mergedStateEntry ord old v) src dst s
  have hbody : (fun (acc : PacketsTable) (state : State)
      (srcDirs : Option OverrideDirections) =>
        match srcDirs with
        | none => acc.set state GoMap.empty
        | some srcDirs =>
          match acc.get? state with
          | none => acc.set state srcDirs.asTable
          | some dstDirs => acc.set state (mergeDirections ord dstDirs srcDirs)) =
      (fun acc state srcDirs =>
        acc.set state (mergedStateEntry ord (acc.get? state) srcDirs)) := by
    funext acc state srcDirs
    cases srcDirs with
    | none => simp [mergedStateEntry]
    | some srcDirs => cases hg : acc.get? state <;> simp [mergedStateEntry]
  unfold mergeStates
  rw [hbody, h]
  cases src.get? s <;> rfl

/-- What the merged table holds at (state, direction, packet type): the ID of `src` where
`src` has one, nothing where `src` holds a nil inner map for the state or the (state,
direction), and what `dst` holds otherwise. -/
theorem lookupID_mergeStates (ord : IterOrder) (dst : PacketsTable) (src : OverridesTable)
    (s : State) (d : Direction) (k : PacketType) :
    lookupID (mergeStates ord dst src) s d k =
      match overrideAt src s d k with
      | OverrideEntry.id id => some id
      | OverrideEntry.nilTable => none
      | OverrideEntry.absent => lookupID dst s d k := by
  unfold lookupID overrideAt
  rw [get?_mergeStates]
  cases hs : src.get? s with
  | none => rfl
  | some srcDirs? =>
    cases srcDirs? with
    | none => simp [mergedStateEntry, GoMap.get?_empty]
    | some srcDirs =>
      cases hd : dst.get? s with
      | none =>
        simp only [mergedStateEntry, Option.some_bind, Option.none_bind,
          OverrideDirections.asTable, GoMap.get?_mapValues]
        cases hsd : srcDirs.get? d with
        | none => rfl
        | some srcTypes? =>
          cases srcTypes? with
          | none => simp [GoMap.get?_empty]
          | some srcTypes => cases h : srcTypes.get? k <;> simp [h]
      | some dstDirs =>
        simp only [mergedStateEntry, Option.some_bind, get?_mergeDirections]
        cases hsd : srcDirs.get? d with
        | none => rfl
        | some srcTypes? =>
          cases srcTypes? with
          | none => simp [mergedDirectionEntry, GoMap.get?_empty]
          | some srcTypes =>
            cases hdd : dstDirs.get? d with
            | none =>
              simp only [mergedDirectionEntry, Option.some_bind, Option.none_bind]
              cases h : srcTypes.get? k <;> simp [h]
            | some dstTypes =>
              simp only [mergedDirectionEntry, Option.some_bind, get?_mergePTypes]
              cases h : srcTypes.get? k <;> simp [h]

theorem invertPTypes_sound (ord : IterOrder) (pTypes : GoMap PacketType Int) (id : Int)
    (k : PacketType) (h : (invertPTypes ord pTypes).get? id = some k) :
    pTypes.get? k = some id := by
  unfold invertPTypes GoMap.range at h
  rcases GoMap.get?_foldl_invert_sound _ _ id k h with h' | h'
  · exact (GoMap.mem_shuffle_iff ord pTypes k id).mp h'
  · simp [GoMap.get?_empty] at h'

theorem invertPTypes_of_unique (ord : IterOrder) (pTypes : GoMap PacketType Int) (id : Int)
    (k : PacketType) (h : pTypes.get? k = some id)
    (huniq : ∀ k', pTypes.get? k' = some id → k' = k) :
    (invertPTypes ord pTypes).get? id = some k := by
  unfold invertPTypes GoMap.range
  apply GoMap.get?_foldl_invert_of_unique
  · exact (GoMap.mem_shuffle_iff ord pTypes k id).mpr h
  · intro k' hk'
    exact huniq k' ((GoMap.mem_shuffle_iff ord pTypes k' id).mp hk')

theorem invertPTypes_isSome (ord : IterOrder) (pTypes : GoMap PacketType Int) (id : Int)
    (k : PacketType) (h : pTypes.get? k = some id) :
    ∃ k', (invertPTypes ord pTypes).get? id = some k' := by
  unfold invertPTypes GoMap.range
  apply GoMap.get?_foldl_invert_isSome
  exact Or.inl ⟨k, (GoMap.mem_shuffle_iff ord pTypes k id).mpr h⟩

theorem get?_invertDirections (ord : IterOrder)
    (directions : GoMap Direction (GoMap PacketType Int)) (d : Direction) :
    (invertDirections ord directions).get? d = (directions.get? d).map (invertPTypes ord) := by
  have h := GoMap.get?_range_set ord
    (fun (_ : Option (GoMap Int PacketType)) (_ : Direction) (v : GoMap PacketType Int) =>
      invertPTypes ord v) directions GoMap.empty d
  unfold invertDirections
  rw [h]
  cases directions.get? d <;> rfl

theorem get?_invertStates (ord : IterOrder) (states : PacketsTable) (s : State) :
    (invertStates ord states).get? s = (states.get? s).map (invertDirections ord) := by
  have h := GoMap.get?_range_set ord
    (fun (_ : Option (GoMap Direction (GoMap Int PacketType))) (_ : State)
      (v : GoMap Direction (GoMap PacketType Int)) => invertDirections ord v)
    states GoMap.empty s
  unfold invertStates
  rw [h]
  cases states.get? s <;> rfl

/-- What the derived table holds at (state, direction, ID), in terms of the table it is
derived from. -/
theorem lookupType_invertStates (ord : IterOrder) (t : PacketsTable) (s : State)
    (d : Direction) (id : Int) :
    lookupType (invertStates ord t) s d id =
      ((t.get? s).bind (fun directions => directions.get? d)).bind
        (fun pTypes => (invertPTypes ord pTypes).get? id) := by
  unfold lookupType
  rw [get?_invertStates]
  cases t.get? s with
  | none => rfl
  | some directions =>
    simp only [Option.map_some', Option.some_bind, get?_invertDirections]
    cases directions.get? d <;> rfl

/-- The derived table is sound: an ID it resolves to a type is the ID of that type. -/
theorem lookupType_invertStates_sound (ord : IterOrder) (t : PacketsTable) (s : State)
    (d : Direction) (id : Int) (k : PacketType)
    (h : lookupType (invertStates ord t) s d id = some k) : lookupID t s d k = some id := by
  rw [lookupType_invertStates] at h
  unfold lookupID
  cases hx : (t.get? s).bind (fun directions => directions.get? d) with
  | none => rw [hx] at h; simp at h
  | some pTypes =>
    rw [hx] at h
    exact invertPTypes_sound ord pTypes id k h

/-- The derived table resolves an ID to the one type that carries it. -/
theorem lookupType_invertStates_of_unique (ord : IterOrder) (t : PacketsTable) (s : State)
    (d : Direction) (id : Int) (k : PacketType) (h : lookupID t s d k = some id)
    (huniq : ∀ k', lookupID t s d k' = some id → k' = k) :
    lookupType (invertStates ord t) s d id = some k := by
  rw [lookupType_invertStates]
  unfold lookupID at h huniq
  cases hx : (t.get? s).bind (fun directions => directions.get? d) with
  | none => rw [hx] at h; simp at h
  | some pTypes =>
    rw [hx] at h huniq
    exact invertPTypes_of_unique ord pTypes id k h huniq

/-- The derived table resolves every ID that some type carries. -/
theorem lookupType_invertStates_isSome (ord : IterOrder) (t : PacketsTable) (s : State)
    (d : Direction) (id : Int) (k : PacketType) (h : lookupID t s d k = some id) :
    ∃ k', lookupType (invertStates ord t) s d id = some k' := by
  rw [lookupType_invertStates]
  unfold lookupID at h
  cases hx : (t.get? s).bind (fun directions => directions.get? d) with
  | none => rw [hx] at h; simp at h
  | some pTypes =>
    rw [hx] at h
    exact invertPTypes_isSome ord pTypes id k h

theorem RegisterPackets_error (ord : IterOrder) (c : ProtocolConsts) (reg : Registry)
    (proto : Protocol) (packetsMap : OverridesTable) :
    (RegisterPackets ord c reg proto packetsMap).2 = none := rfl

theorem RegisterPackets_table (ord : IterOrder) (c : ProtocolConsts) (reg : Registry)
    (proto : Protocol) (packetsMap : OverridesTable) :
    (RegisterPackets ord c reg proto packetsMap).1.table proto =
      mergedTable ord c reg packetsMap := by
  simp [RegisterPackets, mergoMerge, Registry.table, mergedTable, GoMap.get?_set_self]

theorem RegisterPackets_tableByID (ord : IterOrder) (c : ProtocolConsts) (reg : Registry)
    (proto : Protocol) (packetsMap : OverridesTable) :
    (RegisterPackets ord c reg proto packetsMap).1.tableByID proto =
      invertStates ord (mergedTable ord c reg packetsMap) := by
  simp [RegisterPackets, mergoMerge, Registry.table, Registry.tableByID, mergedTable,
    GoMap.get?_set_self]

theorem RegisterPackets_table_of_ne (ord : IterOrder) (c : ProtocolConsts) (reg : Registry)
    (proto : Protocol) (packetsMap : OverridesTable) (v : Protocol) (h : v ≠ proto) :
    (RegisterPackets ord c reg proto packetsMap).1.table v = reg.table v := by
  simp [RegisterPackets, mergoMerge, Registry.table, GoMap.get?_set_of_ne _ _ _ _ h]

theorem RegisterPackets_tableByID_of_ne (ord : IterOrder) (c : ProtocolConsts) (reg : Registry)
    (proto : Protocol) (packetsMap : OverridesTable) (v : Protocol) (h : v ≠ proto) :
    (RegisterPackets ord c reg proto packetsMap).1.tableByID v = reg.tableByID v := by
  simp [RegisterPackets, mergoMerge, Registry.tableByID, GoMap.get?_set_of_ne _ _ _ _ h]

/-- What `mergedTable` holds at (state, direction, packet type). -/
theorem lookupID_mergedTable (ord : IterOrder) (c : ProtocolConsts) (reg : Registry)
    (packetsMap : OverridesTable) (s : State) (d : Direction) (k : PacketType) :
    lookupID (mergedTable ord c reg packetsMap) s d k =
      match overrideAt packetsMap s d k with
      | OverrideEntry.id id => some id
      | OverrideEntry.nilTable => none
      | OverrideEntry.absent => lookupID (reg.table c.Unknown) s d k := by
  unfold mergedTable
  rw [lookupID_mergeStates, lookupID_copyStates]

/-- After `copyPackets` every destination has the table the source had, and every other
version has the table it had. -/
theorem copyPackets_tables (src : Protocol) (destinations : List Protocol) (reg : Registry)
    (v : Protocol) :
    (copyPackets reg src destinations).table v =
        (if v ∈ destinations then reg.table src else reg.table v) ∧
      (copyPackets reg src destinations).tableByID v =
        (if v ∈ destinations then reg.tableByID src else reg.tableByID v) := by
  induction destinations generalizing reg with
  | nil => simp [copyPackets]
  | cons dst rest ih =>
    have step : copyPackets reg src (dst :: rest) =
        copyPackets
          { packets := reg.packets.set dst ((reg.packets.get? src).getD GoMap.empty),
            packetsByID :=
              reg.packetsByID.set dst ((reg.packetsByID.get? src).getD GoMap.empty) }
          src rest := rfl
    rw [step]
    obtain ⟨ih1, ih2⟩ := ih
      { packets := reg.packets.set dst ((reg.packets.get? src).getD GoMap.empty),
        packetsByID := reg.packetsByID.set dst ((reg.packetsByID.get? src).getD GoMap.empty) }
    rw [ih1, ih2]
    have hsrc1 : ∀ w, Registry.table
        { packets := reg.packets.set dst ((reg.packets.get? src).getD GoMap.empty),
          packetsByID :=
            reg.packetsByID.set dst ((reg.packetsByID.get? src).getD GoMap.empty) } w =
        if w = dst then reg.table src else reg.table w := by
      intro w
      by_cases hw : w = dst
      · subst hw
        simp [Registry.table, GoMap.get?_set_self]
      · simp [Registry.table, GoMap.get?_set_of_ne _ _ _ _ hw, hw]
    have hsrc2 : ∀ w, Registry.tableByID
        { packets := reg.packets.set dst ((reg.packets.get? src).getD GoMap.empty),
          packetsByID :=
            reg.packetsByID.set dst ((reg.packetsByID.get? src).getD GoMap.empty) } w =
        if w = dst then reg.tableByID src else reg.tableByID w := by
      intro w
      by_cases hw : w = dst
      · subst hw
        simp [Registry.tableByID, GoMap.get?_set_self]
      · simp [Registry.tableByID, GoMap.get?_set_of_ne _ _ _ _ hw, hw]
    rw [hsrc1, hsrc2, hsrc1, hsrc2]
    by_cases hv : v = dst
    · subst hv
      by_cases hs : src = v
      · subst hs
        simp
      · by_cases hr : v ∈ rest <;> simp [hr, hs]
    · by_cases hs : src = dst
      · subst hs
        by_cases hr : v ∈ rest <;> simp [hr, hv]
      · by_cases hr : v ∈ rest <;> simp [hr, hv, hs]


theorem staticRegistry_table_Unknown (c : ProtocolConsts) :
    (staticRegistry c).table c.Unknown = baselinePackets := by
  unfold Registry.table staticRegistry staticPackets
  show ((GoMap.empty.set c.Unknown baselinePackets).get? c.Unknown).getD GoMap.empty = _
  rw [GoMap.get?_set_self]
  rfl

theorem init_eq (ord : IterOrder) (c : ProtocolConsts) :
    init ord c = some (copyPackets
      (RegisterPackets ord c (staticRegistry c) c.V1_16 initOverrides).1 c.V1_16
      [c.V1_16_1, c.V1_16_2, c.V1_16_3, c.V1_16_4]) := rfl

/-- Every version `init` registers or aliases ends up with the merged table of V1_16. -/
theorem init_table (ord : IterOrder) (c : ProtocolConsts) (v : Protocol)
    (hv : v ∈ [c.V1_16, c.V1_16_1, c.V1_16_2, c.V1_16_3, c.V1_16_4]) :
    (copyPackets (RegisterPackets ord c (staticRegistry c) c.V1_16 initOverrides).1 c.V1_16
      [c.V1_16_1, c.V1_16_2, c.V1_16_3, c.V1_16_4]).table v =
      mergedTable ord c (staticRegistry c) initOverrides := by
  rw [(copyPackets_tables _ _ _ v).1]
  by_cases h : v ∈ [c.V1_16_1, c.V1_16_2, c.V1_16_3, c.V1_16_4]
  · rw [if_pos h, RegisterPackets_table]
  · rw [if_neg h]
    have h16 : v = c.V1_16 := by
      rcases List.mem_cons.mp hv with h' | h'
      · exact h'
      · exact absurd h' h
    rw [h16, RegisterPackets_table]

theorem mergeStates_empty (ord : IterOrder) (dst : PacketsTable) :
    mergeStates ord dst GoMap.empty = dst := by
  have h : ord.shuffle (GoMap.empty : OverridesTable).entries = [] :=
    List.Perm.eq_nil (ord.perm _)
  unfold mergeStates GoMap.range
  rw [h]
  rfl

/-! ## The claims -/

/-- C1, counterexample: with an override map that gives `PacketPlayOutServerDifficulty` and
`PacketPlayOutKeepAlive` the one ID 0x0D, whatever the iteration order, `GetPacketID` returns
0x0D for both types after `RegisterPackets`, so `GetPacketByID` of 0x0D cannot return a
packet of the queried type for both: the two lookups are not inverses at this input. -/
theorem C1_counterexample :
    ¬ ∃ ord : IterOrder, ∀ (k : PacketType) (id : Int),
      GetPacketID
          (RegisterPackets ord sampleConsts (staticRegistry sampleConsts) 735
            collidingOverrides).1 735 State.Play Direction.ClientBound (Packet.ofType k) =
          (id, none) →
        ∃ p, GetPacketByID
            (RegisterPackets ord sampleConsts (staticRegistry sampleConsts) 735
              collidingOverrides).1 735 State.Play Direction.ClientBound id = (some p, none) ∧
          Packet.typeOf p = k := by
  rintro ⟨ord, h⟩
  have hid : ∀ k,
      overrideAt collidingOverrides State.Play Direction.ClientBound k = OverrideEntry.id 0x0D →
      GetPacketID
          (RegisterPackets ord sampleConsts (staticRegistry sampleConsts) 735
            collidingOverrides).1 735 State.Play Direction.ClientBound (Packet.ofType k) =
          (0x0D, none) := by
    intro k hk
    have hk' : overrideAt collidingOverrides State.Play Direction.ClientBound
        (Packet.typeOf (Packet.ofType k)) = OverrideEntry.id 0x0D := hk
    rw [GetPacketID_eq, RegisterPackets_table, lookupID_mergedTable, hk']
    rfl
  obtain ⟨p1, e1, t1⟩ := h PacketType.PacketPlayOutServerDifficulty 0x0D (hid _ (by decide))
  obtain ⟨p2, e2, t2⟩ := h PacketType.PacketPlayOutKeepAlive 0x0D (hid _ (by decide))
  rw [e1] at e2
  cases e2
  rw [t1] at t2
  cases t2

/-- C1, amended: after `RegisterPackets(v, o)`, for every baseline, override map and
iteration order, if `GetPacketID(v, s, d, packet)` returns `id` without error and every
packet for which it returns that `id` has the type of `packet`, then
`GetPacketByID(v, s, d, id)` returns without error a new packet of that type. -/
theorem C1_inverse_of_unshared_id (ord : IterOrder) (c : ProtocolConsts) (reg : Registry)
    (proto : Protocol) (packetsMap : OverridesTable) (s : State) (d : Direction)
    (packet : Packet) (id : Int)
    (hid : GetPacketID (RegisterPackets ord c reg proto packetsMap).1 proto s d packet =
      (id, none))
    (hunshared : ∀ other : Packet,
      GetPacketID (RegisterPackets ord c reg proto packetsMap).1 proto s d other = (id, none) →
        Packet.typeOf other = Packet.typeOf packet) :
    GetPacketByID (RegisterPackets ord c reg proto packetsMap).1 proto s d id =
        (some (newPacket (Packet.typeOf packet)), none) ∧
      Packet.typeOf (newPacket (Packet.typeOf packet)) = Packet.typeOf packet := by
  refine ⟨?_, typeOf_newPacket _⟩
  rw [GetPacketID_eq, idResult_eq_ok, RegisterPackets_table] at hid
  rw [GetPacketByID_eq, RegisterPackets_tableByID]
  have huniq : ∀ k', lookupID (mergedTable ord c reg packetsMap) s d k' = some id →
      k' = Packet.typeOf packet := by
    intro k' hk'
    have := hunshared (Packet.ofType k') (by
      rw [GetPacketID_eq, idResult_eq_ok, RegisterPackets_table]
      exact hk')
    exact this
  rw [lookupType_invertStates_of_unique ord _ s d id _ hid huniq]
  rfl

/-- C1, witness: in the registry `init` builds for V1_16, ID 0x1F of (Play, ClientBound) is
carried by `PacketPlayOutKeepAlive` alone and resolves back to it. -/
theorem C1_inverse_of_unshared_id_witness :
    GetPacketByID
        (RegisterPackets IterOrder.stored sampleConsts (staticRegistry sampleConsts) 735
          initOverrides).1 735 State.Play Direction.ClientBound 0x1F =
      (some (Packet.ofType PacketType.PacketPlayOutKeepAlive), none) :=
  (C1_inverse_of_unshared_id IterOrder.stored sampleConsts (staticRegistry sampleConsts) 735
    initOverrides State.Play Direction.ClientBound
    (Packet.ofType PacketType.PacketPlayOutKeepAlive) 0x1F (by decide) (by
      intro other h
      rw [GetPacketID_eq, idResult_eq_ok, RegisterPackets_table, lookupID_mergedTable,
        staticRegistry_table_Unknown] at h
      show Packet.typeOf other = PacketType.PacketPlayOutKeepAlive
      generalize Packet.typeOf other = k at h
      cases k with
      | other n =>
        simp [lookupID, overrideAt, initOverrides, baselinePackets, GoMap.literal, GoMap.get?,
          GoMap.set, GoMap.empty, setEntries, lookupEntries] at h
      | PacketPlayOutKeepAlive => rfl
      | _ => exact absurd h (by decide))).1

/-- C2, counterexample: `collidingOverrides` makes the merged table map
`PacketPlayOutServerDifficulty` and `PacketPlayOutKeepAlive` to the one ID 0x0D in
(Play, ClientBound); for no iteration order does `RegisterPackets` then return an error and
leave `packets[735]` and `packetsByID[735]` as they were. -/
theorem C2_counterexample :
    ¬ ∃ ord : IterOrder,
      (lookupID (mergedTable ord sampleConsts (staticRegistry sampleConsts) collidingOverrides)
            State.Play Direction.ClientBound PacketType.PacketPlayOutServerDifficulty =
            some 0x0D ∧
          lookupID (mergedTable ord sampleConsts (staticRegistry sampleConsts) collidingOverrides)
            State.Play Direction.ClientBound PacketType.PacketPlayOutKeepAlive = some 0x0D →
        (RegisterPackets ord sampleConsts (staticRegistry sampleConsts) 735
            collidingOverrides).2 ≠ none ∧
          (RegisterPackets ord sampleConsts (staticRegistry sampleConsts) 735
            collidingOverrides).1.table 735 = (staticRegistry sampleConsts).table 735 ∧
          (RegisterPackets ord sampleConsts (staticRegistry sampleConsts) 735
            collidingOverrides).1.tableByID 735 =
            (staticRegistry sampleConsts).tableByID 735) := by
  rintro ⟨ord, h⟩
  have hcol : lookupID
          (mergedTable ord sampleConsts (staticRegistry sampleConsts) collidingOverrides)
          State.Play Direction.ClientBound PacketType.PacketPlayOutServerDifficulty =
          some 0x0D ∧
        lookupID (mergedTable ord sampleConsts (staticRegistry sampleConsts) collidingOverrides)
          State.Play Direction.ClientBound PacketType.PacketPlayOutKeepAlive = some 0x0D := by
    rw [lookupID_mergedTable, lookupID_mergedTable]
    exact ⟨rfl, rfl⟩
  exact (h hcol).1 (RegisterPackets_error _ _ _ _ _)

/-- C2, amended: `RegisterPackets` does not look for ID collisions.  For every registry,
version, override map and iteration order it returns a nil error and stores the merged table
(the baseline overlaid with the overrides) as `packets[v]` and a derived table as
`packetsByID[v]`, in which every ID of the merged table, shared or not, resolves to one
packet type that carries this ID. -/
theorem C2_collisions_not_rejected (ord : IterOrder) (c : ProtocolConsts) (reg : Registry)
    (proto : Protocol) (packetsMap : OverridesTable) :
    (RegisterPackets ord c reg proto packetsMap).2 = none ∧
      (∀ s d packet,
        GetPacketID (RegisterPackets ord c reg proto packetsMap).1 proto s d packet =
          idResult (lookupID (mergedTable ord c reg packetsMap) s d (Packet.typeOf packet))) ∧
      (∀ s d k id, lookupID (mergedTable ord c reg packetsMap) s d k = some id →
        ∃ k', GetPacketByID (RegisterPackets ord c reg proto packetsMap).1 proto s d id =
            (some (newPacket k'), none) ∧
          lookupID (mergedTable ord c reg packetsMap) s d k' = some id) := by
  refine ⟨RegisterPackets_error _ _ _ _ _, ?_, ?_⟩
  · intro s d packet
    rw [GetPacketID_eq, RegisterPackets_table]
  · intro s d k id hk
    obtain ⟨k', hk'⟩ := lookupType_invertStates_isSome ord _ s d id k hk
    refine ⟨k', ?_, lookupType_invertStates_sound ord _ s d id k' hk'⟩
    rw [GetPacketByID_eq, RegisterPackets_tableByID, hk']
    rfl

/-- C3, counterexample: with the override map `{Status: nil}`, which has no entry for
(Status, ClientBound, `PacketStatusOutResponse`), and the static baseline, which holds ID
0x00 there, for no iteration order does `GetPacketID(735, Status, ClientBound,
PacketStatusOutResponse)` return the baseline ID after `RegisterPackets(735, o)`: the nil
inner map has replaced the copied Status table. -/
theorem C3_counterexample :
    ¬ ∃ ord : IterOrder,
      (GetPacketID (staticRegistry sampleConsts) (-1) State.Status Direction.ClientBound
            (Packet.ofType PacketType.PacketStatusOutResponse) = (0x00, none) →
        GetPacketID
            (RegisterPackets ord sampleConsts (staticRegistry sampleConsts) 735
              nilStatusOverrides).1 735 State.Status Direction.ClientBound
            (Packet.ofType PacketType.PacketStatusOutResponse) = (0x00, none)) := by
  rintro ⟨ord, h⟩
  have h' := h (by decide)
  rw [GetPacketID_eq, RegisterPackets_table, lookupID_mergedTable] at h'
  have hnil : overrideAt nilStatusOverrides State.Status Direction.ClientBound
      (Packet.typeOf (Packet.ofType PacketType.PacketStatusOutResponse)) =
      OverrideEntry.nilTable := by decide
  rw [hnil] at h'
  simp [idResult] at h'

/-- C3, amended: after `RegisterPackets(v, o)`, which returns a nil error, for every state s,
direction d and packet: where `o` holds an ID at (s, d, kind), `GetPacketID(v, s, d, packet)`
returns that ID (0 included); where `o` holds a nil inner map for s or for (s, d), it fails,
whatever the baseline holds; and where `o` holds neither, it returns the ID the baseline
`packets[Unknown]` had at (s, d, kind) when it had one and fails otherwise. -/
theorem C3_overlay_unless_nil_inner_map (ord : IterOrder) (c : ProtocolConsts)
    (reg : Registry) (proto : Protocol) (packetsMap : OverridesTable) (s : State)
    (d : Direction) (packet : Packet) :
    (RegisterPackets ord c reg proto packetsMap).2 = none ∧
      GetPacketID (RegisterPackets ord c reg proto packetsMap).1 proto s d packet =
        match overrideAt packetsMap s d (Packet.typeOf packet) with
        | OverrideEntry.id id => (id, none)
        | OverrideEntry.nilTable => (0, some GoError.noPacketIDFound)
        | OverrideEntry.absent =>
          match lookupID (reg.table c.Unknown) s d (Packet.typeOf packet) with
          | some id => (id, none)
          | none => (0, some GoError.noPacketIDFound) := by
  refine ⟨RegisterPackets_error _ _ _ _ _, ?_⟩
  rw [GetPacketID_eq, RegisterPackets_table, lookupID_mergedTable]
  cases overrideAt packetsMap s d (Packet.typeOf packet) with
  | id id => rfl
  | nilTable => rfl
  | absent => cases lookupID (reg.table c.Unknown) s d (Packet.typeOf packet) <;> rfl

/-- C4: for every registry, version and iteration order, `RegisterPackets(v, {})` returns a
nil error and stores a table `packets[v]` that has a state table, a direction table and an
ID exactly where the baseline `packets[Unknown]` has one, with the same ID. -/
theorem C4_empty_overrides_copy_baseline (ord : IterOrder) (c : ProtocolConsts)
    (reg : Registry) (proto : Protocol) :
    (RegisterPackets ord c reg proto GoMap.empty).2 = none ∧
      (∃ t, (RegisterPackets ord c reg proto GoMap.empty).1.packets.get? proto = some t ∧
        (∀ s, hasState t s = hasState (reg.table c.Unknown) s) ∧
        (∀ s d, hasDirection t s d = hasDirection (reg.table c.Unknown) s d) ∧
        (∀ s d k, lookupID t s d k = lookupID (reg.table c.Unknown) s d k)) := by
  refine ⟨RegisterPackets_error _ _ _ _ _, copyStates ord (reg.table c.Unknown), ?_, ?_, ?_, ?_⟩
  · show (reg.packets.set proto
        (mergeStates ord (copyStates ord (reg.table c.Unknown)) GoMap.empty)).get? proto = _
    rw [GoMap.get?_set_self, mergeStates_empty]
  · intro s
    exact hasState_copyStates ord _ s
  · intro s d
    exact hasDirection_copyStates ord _ s d
  · intro s d k
    exact lookupID_copyStates ord _ s d k

/-- C5: after `copyPackets(src, dsts...)`, for every destination `dst` of the list,
`GetPacketID(dst, s, d, packet)` is the pair `GetPacketID(src, s, d, packet)` is, both after
the call and for `src` before it, and so is `GetPacketByID(dst, s, d, id)` with
`GetPacketByID(src, s, d, id)`: the same packet or the same failure. -/
theorem C5_copyPackets_preserves_lookups (reg : Registry) (src : Protocol)
    (destinations : List Protocol) (dst : Protocol) (s : State) (d : Direction)
    (packet : Packet) (id : Int) (hdst : dst ∈ destinations) :
    GetPacketID (copyPackets reg src destinations) dst s d packet =
        GetPacketID (copyPackets reg src destinations) src s d packet ∧
      GetPacketID (copyPackets reg src destinations) dst s d packet =
        GetPacketID reg src s d packet ∧
      GetPacketByID (copyPackets reg src destinations) dst s d id =
        GetPacketByID (copyPackets reg src destinations) src s d id ∧
      GetPacketByID (copyPackets reg src destinations) dst s d id =
        GetPacketByID reg src s d id := by
  have hd := copyPackets_tables src destinations reg dst
  have hs := copyPackets_tables src destinations reg src
  rw [if_pos hdst, if_pos hdst] at hd
  rw [ite_self, ite_self] at hs
  simp only [GetPacketID_eq, GetPacketByID_eq, hd.1, hd.2, hs.1, hs.2, and_self]

/-- C5, witness: aliasing the baseline version -1 onto 735 and 736 in the static registry;
version 736 then resolves `PacketHandshakingStart` and ID 0 as version -1 does. -/
theorem C5_copyPackets_preserves_lookups_witness :
    GetPacketID (copyPackets (staticRegistry sampleConsts) (-1) [735, 736]) 736
        State.Handshaking Direction.ServerBound
        (Packet.ofType PacketType.PacketHandshakingStart) =
        GetPacketID (staticRegistry sampleConsts) (-1) State.Handshaking Direction.ServerBound
          (Packet.ofType PacketType.PacketHandshakingStart) ∧
      GetPacketByID (copyPackets (staticRegistry sampleConsts) (-1) [735, 736]) 736
        State.Handshaking Direction.ServerBound 0 =
        GetPacketByID (staticRegistry sampleConsts) (-1) State.Handshaking
          Direction.ServerBound 0 :=
  have h := C5_copyPackets_preserves_lookups (staticRegistry sampleConsts) (-1) [735, 736] 736
    State.Handshaking Direction.ServerBound (Packet.ofType PacketType.PacketHandshakingStart) 0
    (by decide)
  ⟨h.2.1, h.2.2.2⟩

/-- C6: for every iteration order and every value of the version constants, `init` does not
panic, and in the registry it leaves, each of V1_16, V1_16_1, V1_16_2, V1_16_3, V1_16_4
resolves `PacketPlayOutKeepAlive` in (Play, ClientBound) to 0x1F and the inherited
`PacketHandshakingStart` in (Handshaking, ServerBound) to 0x00. -/
theorem C6_init_keepalive_and_handshake (ord : IterOrder) (c : ProtocolConsts) :
    ∃ reg, init ord c = some reg ∧
      ∀ v ∈ [c.V1_16, c.V1_16_1, c.V1_16_2, c.V1_16_3, c.V1_16_4],
        GetPacketID reg v State.Play Direction.ClientBound
            (Packet.ofType PacketType.PacketPlayOutKeepAlive) = (0x1F, none) ∧
          GetPacketID reg v State.Handshaking Direction.ServerBound
            (Packet.ofType PacketType.PacketHandshakingStart) = (0x00, none) := by
  refine ⟨_, init_eq ord c, ?_⟩
  intro v hv
  rw [GetPacketID_eq, GetPacketID_eq, init_table ord c v hv, lookupID_mergedTable,
    lookupID_mergedTable, staticRegistry_table_Unknown]
  exact ⟨rfl, rfl⟩


/-- C7: for every Difficulty from 0 to 255, every Locked, every decoding of bools and every
two protocol versions, `Write` into an empty buffer returns a nil error, and `Read` of a new
zero-valued packet over the written buffer returns a nil error, yields the Difficulty and
the Locked that were written and leaves no byte unread. -/
theorem C7_write_then_read (dec : BoolDecoding) (difficulty : Nat) (locked : Bool)
    (protoW protoR : Protocol) (h : difficulty ≤ 255) :
    (PacketPlayOutServerDifficulty.Write ⟨difficulty, locked⟩ protoW Buffer.empty).1 = none ∧
      ∃ buffer, PacketPlayOutServerDifficulty.Read dec ⟨0, false⟩ protoR
          (PacketPlayOutServerDifficulty.Write ⟨difficulty, locked⟩ protoW Buffer.empty).2 =
          (none, ⟨difficulty, locked⟩, buffer) ∧
        buffer.unread = [] := by
  have hmod : difficulty % 256 = difficulty := Nat.mod_eq_of_lt (by omega)
  refine ⟨rfl, ⟨[difficulty, if locked then 0x01 else 0x00], 2⟩, ?_, rfl⟩
  cases locked
  · simp [PacketPlayOutServerDifficulty.Read, PacketPlayOutServerDifficulty.Write,
      Buffer.WriteUint8, Buffer.WriteBool, Buffer.ReadUint8, Buffer.ReadBool, Buffer.empty,
      hmod, dec.decode_zero]
  · simp [PacketPlayOutServerDifficulty.Read, PacketPlayOutServerDifficulty.Write,
      Buffer.WriteUint8, Buffer.WriteBool, Buffer.ReadUint8, Buffer.ReadBool, Buffer.empty,
      hmod, dec.decode_one]

/-- C7, witness: Difficulty 2, Locked true, written and read back for version 735. -/
theorem C7_write_then_read_witness :
    ∃ buffer, PacketPlayOutServerDifficulty.Read BoolDecoding.nonzero ⟨0, false⟩ 735
        (PacketPlayOutServerDifficulty.Write ⟨2, true⟩ 735 Buffer.empty).2 =
        (none, ⟨2, true⟩, buffer) ∧
      buffer.unread = [] :=
  (C7_write_then_read BoolDecoding.nonzero 2 true 735 735 (by decide)).2

/-- C8: for every registry and every (version, state, direction, packet), `GetPacketID`
returns a non-nil error exactly when `packets` has no entry for the version, or the
version's table none for the state, or that one none for the direction, or that one none for
the packet's type; the ID returned with an error is 0; and when all four entries exist it
returns the stored ID with a nil error. -/
theorem C8_GetPacketID_fails_iff_absent (reg : Registry) (proto : Protocol) (s : State)
    (d : Direction) (packet : Packet) :
    ((GetPacketID reg proto s d packet).2 ≠ none ↔
        (reg.packets.get? proto = none ∨
          ∃ states, reg.packets.get? proto = some states ∧
            (states.get? s = none ∨
              ∃ directions, states.get? s = some directions ∧
                (directions.get? d = none ∨
                  ∃ pTypes, directions.get? d = some pTypes ∧
                    pTypes.get? (Packet.typeOf packet) = none)))) ∧
      ((GetPacketID reg proto s d packet).2 ≠ none →
        GetPacketID reg proto s d packet = (0, some GoError.noPacketIDFound)) ∧
      (∀ states directions pTypes id, reg.packets.get? proto = some states →
        states.get? s = some directions → directions.get? d = some pTypes →
        pTypes.get? (Packet.typeOf packet) = some id →
        GetPacketID reg proto s d packet = (id, none)) := by
  refine ⟨?_, ?_, ?_⟩
  · unfold GetPacketID
    cases h1 : reg.packets.get? proto with
    | none => simp
    | some states =>
      cases h2 : states.get? s with
      | none => simp [h2]
      | some directions =>
        cases h3 : directions.get? d with
        | none => simp [h2, h3]
        | some pTypes =>
          cases h4 : pTypes.get? (Packet.typeOf packet) <;> simp [h2, h3, h4]
  · unfold GetPacketID
    cases h1 : reg.packets.get? proto with
    | none => simp
    | some states =>
      cases h2 : states.get? s with
      | none => simp [h2]
      | some directions =>
        cases h3 : directions.get? d with
        | none => simp [h2, h3]
        | some pTypes =>
          cases h4 : pTypes.get? (Packet.typeOf packet) <;> simp [h2, h3, h4]
  · intro states directions pTypes id h1 h2 h3 h4
    unfold GetPacketID
    simp only [h1, h2, h3, h4]

/-- C9: for every registry and every (version, state, direction, id), `GetPacketByID`
returns no packet and a non-nil error exactly when `packetsByID` has no entry for the
version, or the version's table none for the state, or that one none for the direction, or
that one none for the ID; when all four entries exist it returns, with a nil error, a new
packet that has the stored type; and a new `PacketPlayOutServerDifficulty` has Difficulty 0
and Locked false. -/
theorem C9_GetPacketByID_fails_iff_absent (reg : Registry) (proto : Protocol) (s : State)
    (d : Direction) (id : Int) :
    (GetPacketByID reg proto s d id = (none, some (GoError.noPacketFoundWithID id)) ↔
        (reg.packetsByID.get? proto = none ∨
          ∃ states, reg.packetsByID.get? proto = some states ∧
            (states.get? s = none ∨
              ∃ directions, states.get? s = some directions ∧
                (directions.get? d = none ∨
                  ∃ pIDs, directions.get? d = some pIDs ∧ pIDs.get? id = none)))) ∧
      ((GetPacketByID reg proto s d id).2 ≠ none ∨ (GetPacketByID reg proto s d id).1 = none →
        GetPacketByID reg proto s d id = (none, some (GoError.noPacketFoundWithID id))) ∧
      (∀ states directions pIDs pType, reg.packetsByID.get? proto = some states →
        states.get? s = some directions → directions.get? d = some pIDs →
        pIDs.get? id = some pType →
        GetPacketByID reg proto s d id = (some (newPacket pType), none) ∧
          Packet.typeOf (newPacket pType) = pType) ∧
      newPacket PacketType.PacketPlayOutServerDifficulty =
        Packet.serverDifficulty { Difficulty := 0, Locked := false } := by
  refine ⟨?_, ?_, ?_, rfl⟩
  · unfold GetPacketByID
    cases h1 : reg.packetsByID.get? proto with
    | none => simp
    | some states =>
      cases h2 : states.get? s with
      | none => simp [h2]
      | some directions =>
        cases h3 : directions.get? d with
        | none => simp [h2, h3]
        | some pIDs =>
          cases h4 : pIDs.get? id <;> simp [h2, h3, h4]
  · unfold GetPacketByID
    cases h1 : reg.packetsByID.get? proto with
    | none => simp
    | some states =>
      cases h2 : states.get? s with
      | none => simp [h2]
      | some directions =>
        cases h3 : directions.get? d with
        | none => simp [h2, h3]
        | some pIDs =>
          cases h4 : pIDs.get? id <;> simp [h2, h3, h4]
  · intro states directions pIDs pType h1 h2 h3 h4
    refine ⟨?_, typeOf_newPacket pType⟩
    unfold GetPacketByID
    simp only [h1, h2, h3, h4]

/-- After `init`, a version that is none of the five registered ones still has the static
baseline table. -/
theorem init_table_Unknown (ord : IterOrder) (c : ProtocolConsts)
    (hU : c.Unknown ∉ [c.V1_16, c.V1_16_1, c.V1_16_2, c.V1_16_3, c.V1_16_4]) :
    (copyPackets (RegisterPackets ord c (staticRegistry c) c.V1_16 initOverrides).1 c.V1_16
      [c.V1_16_1, c.V1_16_2, c.V1_16_3, c.V1_16_4]).table c.Unknown = baselinePackets := by
  have h1 : c.Unknown ≠ c.V1_16 := fun e => hU (e ▸ List.mem_cons_self _ _)
  have h2 : c.Unknown ∉ [c.V1_16_1, c.V1_16_2, c.V1_16_3, c.V1_16_4] :=
    fun h => hU (List.mem_cons_of_mem _ h)
  rw [(copyPackets_tables _ _ _ c.Unknown).1, if_neg h2,
    RegisterPackets_table_of_ne _ _ _ _ _ _ h1, staticRegistry_table_Unknown]

/-- C10: `GetID` of a `PacketPlayOutServerDifficulty` is `GetPacketID` under the key
(Play, ClientBound), for every registry, version and field values; and when
`protocol.Unknown` is none of the five 1.16 versions, then in the registry `init` leaves,
for every iteration order, `GetID` returns 0x0D with a nil error for each of V1_16, V1_16_1,
V1_16_2, V1_16_3, V1_16_4 and the not-found error for `protocol.Unknown`. -/
theorem C10_GetID_resolves_through_registry (ord : IterOrder) (c : ProtocolConsts)
    (packet : PacketPlayOutServerDifficulty)
    (hU : c.Unknown ∉ [c.V1_16, c.V1_16_1, c.V1_16_2, c.V1_16_3, c.V1_16_4]) :
    (∀ (reg : Registry) (v : Protocol),
        packet.GetID reg v =
          GetPacketID reg v State.Play Direction.ClientBound (Packet.serverDifficulty packet)) ∧
      ∃ reg, init ord c = some reg ∧
        (∀ v ∈ [c.V1_16, c.V1_16_1, c.V1_16_2, c.V1_16_3, c.V1_16_4],
          packet.GetID reg v = (0x0D, none)) ∧
        packet.GetID reg c.Unknown = (0, some GoError.noPacketIDFound) := by
  refine ⟨fun _ _ => rfl, _, init_eq ord c, ?_, ?_⟩
  · intro v hv
    unfold PacketPlayOutServerDifficulty.GetID
    rw [GetPacketID_eq, init_table ord c v hv, lookupID_mergedTable]
    rfl
  · unfold PacketPlayOutServerDifficulty.GetID
    rw [GetPacketID_eq, init_table_Unknown ord c hU]
    rfl

/-- C10, witness: the constants -1, 735, 736, 751, 753, 754, in stored iteration order, for a
packet with Difficulty 3 and Locked true. -/
theorem C10_GetID_resolves_through_registry_witness :
    ∃ reg, init IterOrder.stored sampleConsts = some reg ∧
      (∀ v ∈ [(735 : Int), 736, 751, 753, 754],
        PacketPlayOutServerDifficulty.GetID reg ⟨3, true⟩ v = (0x0D, none)) ∧
      PacketPlayOutServerDifficulty.GetID reg ⟨3, true⟩ (-1) =
        (0, some GoError.noPacketIDFound) :=
  (C10_GetID_resolves_through_registry IterOrder.stored sampleConsts ⟨3, true⟩
    (by decide)).2

/-! ## Lemmas on the buffer -/

theorem drop_eq_cons_iff_get? (l : List Nat) (n : Nat) (x : Nat) (rest : List Nat)
    (h : l.drop n = x :: rest) : l.get? n = some x ∧ l.drop (n + 1) = rest := by
  induction l generalizing n with
  | nil => simp at h
  | cons a tl ih =>
    cases n with
    | zero =>
      simp only [List.drop_zero, List.cons.injEq] at h
      obtain ⟨rfl, rfl⟩ := h
      exact ⟨rfl, rfl⟩
    | succ m =>
      simp only [List.drop_succ_cons] at h
      exact ih m h

theorem Buffer.ReadUint8_of_unread_cons (b : Buffer) (x : Nat) (rest : List Nat)
    (h : b.unread = x :: rest) :
    b.ReadUint8 = (x, none, { b with readPos := b.readPos + 1 }) ∧
      ({ b with readPos := b.readPos + 1 } : Buffer).unread = rest := by
  obtain ⟨hget, hdrop⟩ := drop_eq_cons_iff_get? b.data b.readPos x rest h
  refine ⟨?_, hdrop⟩
  unfold Buffer.ReadUint8
  rw [hget]

theorem Buffer.ReadBool_of_unread_cons (dec : BoolDecoding) (b : Buffer) (x : Nat)
    (rest : List Nat) (h : b.unread = x :: rest) :
    b.ReadBool dec = (dec.decode x, none, { b with readPos := b.readPos + 1 }) ∧
      ({ b with readPos := b.readPos + 1 } : Buffer).unread = rest := by
  obtain ⟨hget, hdrop⟩ := drop_eq_cons_iff_get? b.data b.readPos x rest h
  refine ⟨?_, hdrop⟩
  unfold Buffer.ReadBool
  rw [hget]

theorem Buffer.ReadUint8_of_unread_nil (b : Buffer) (h : b.unread = []) :
    b.ReadUint8 = (0, some GoError.underrun, b) := by
  have hget : b.data.get? b.readPos = none :=
    List.get?_eq_none.mpr (List.drop_eq_nil_iff.mp h)
  unfold Buffer.ReadUint8
  rw [hget]

theorem Buffer.ReadBool_of_unread_nil (dec : BoolDecoding) (b : Buffer) (h : b.unread = []) :
    b.ReadBool dec = (false, some GoError.underrun, b) := by
  have hget : b.data.get? b.readPos = none :=
    List.get?_eq_none.mpr (List.drop_eq_nil_iff.mp h)
  unfold Buffer.ReadBool
  rw [hget]

/-- What `Read` does on a buffer without an unread byte. -/
theorem Read_of_unread_nil (dec : BoolDecoding) (packet : PacketPlayOutServerDifficulty)
    (proto : Protocol) (buffer : Buffer) (h : buffer.unread = []) :
    PacketPlayOutServerDifficulty.Read dec packet proto buffer =
      (some GoError.underrun, packet, buffer) := by
  unfold PacketPlayOutServerDifficulty.Read
  rw [Buffer.ReadUint8_of_unread_nil buffer h]

/-- What `Read` does on a buffer with one unread byte. -/
theorem Read_of_unread_one (dec : BoolDecoding) (packet : PacketPlayOutServerDifficulty)
    (proto : Protocol) (buffer : Buffer) (b : Nat) (h : buffer.unread = [b]) :
    PacketPlayOutServerDifficulty.Read dec packet proto buffer =
      (some GoError.underrun, { packet with Difficulty := b },
        { buffer with readPos := buffer.readPos + 1 }) := by
  obtain ⟨h1, h1'⟩ := Buffer.ReadUint8_of_unread_cons buffer b [] h
  unfold PacketPlayOutServerDifficulty.Read
  rw [h1]
  simp only
  rw [Buffer.ReadBool_of_unread_nil dec _ h1']

/-- What `Read` does on a buffer with two unread bytes or more. -/
theorem Read_of_unread_two (dec : BoolDecoding) (packet : PacketPlayOutServerDifficulty)
    (proto : Protocol) (buffer : Buffer) (b0 b1 : Nat) (t : List Nat)
    (h : buffer.unread = b0 :: b1 :: t) :
    PacketPlayOutServerDifficulty.Read dec packet proto buffer =
        (none, { Difficulty := b0, Locked := dec.decode b1 },
          { buffer with readPos := buffer.readPos + 2 }) ∧
      ({ buffer with readPos := buffer.readPos + 2 } : Buffer).unread = t := by
  obtain ⟨h1, h1'⟩ := Buffer.ReadUint8_of_unread_cons buffer b0 (b1 :: t) h
  obtain ⟨h2, h2'⟩ := Buffer.ReadBool_of_unread_cons dec _ b1 t h1'
  refine ⟨?_, h2'⟩
  unfold PacketPlayOutServerDifficulty.Read
  rw [h1]
  simp only
  rw [h2]

/-- C11: for every buffer whose unread bytes are b0, b1 and then any bytes t, `Read` returns
a nil error, sets Difficulty to b0 and Locked to the bool decoded from b1, moves the read
position forward by 2 without touching the bytes, and leaves exactly t unread; for every
buffer with fewer than two unread bytes `Read` returns a non-nil error. -/
theorem C11_Read_consumes_two_bytes (dec : BoolDecoding)
    (packet : PacketPlayOutServerDifficulty) (proto : Protocol) (buffer : Buffer) :
    (∀ b0 b1 t, buffer.unread = b0 :: b1 :: t →
        PacketPlayOutServerDifficulty.Read dec packet proto buffer =
          (none, { Difficulty := b0, Locked := dec.decode b1 },
            { data := buffer.data, readPos := buffer.readPos + 2 }) ∧
        ({ data := buffer.data, readPos := buffer.readPos + 2 } : Buffer).unread = t) ∧
      (buffer.unread.length < 2 →
        (PacketPlayOutServerDifficulty.Read dec packet proto buffer).1 ≠ none) := by
  refine ⟨fun b0 b1 t h => Read_of_unread_two dec packet proto buffer b0 b1 t h, ?_⟩
  intro hlen
  cases hu : buffer.unread with
  | nil => rw [Read_of_unread_nil dec packet proto buffer hu]; simp
  | cons b rest =>
    cases rest with
    | nil => rw [Read_of_unread_one dec packet proto buffer b hu]; simp
    | cons b' rest' =>
      rw [hu] at hlen
      simp only [List.length_cons] at hlen
      omega

/-- C11, witness: a buffer holding 9, 2, 1, 7 with the 9 already read: `Read` yields
Difficulty 2 and Locked true and leaves the 7 unread; with only the 7 left it fails. -/
theorem C11_Read_consumes_two_bytes_witness :
    (PacketPlayOutServerDifficulty.Read BoolDecoding.nonzero ⟨0, false⟩ 735
          { data := [9, 2, 1, 7], readPos := 1 } =
        (none, { Difficulty := 2, Locked := true }, { data := [9, 2, 1, 7], readPos := 3 }) ∧
        ({ data := [9, 2, 1, 7], readPos := 3 } : Buffer).unread = [7]) ∧
      (PacketPlayOutServerDifficulty.Read BoolDecoding.nonzero ⟨0, false⟩ 735
        { data := [9, 2, 1, 7], readPos := 3 }).1 ≠ none :=
  ⟨(C11_Read_consumes_two_bytes BoolDecoding.nonzero ⟨0, false⟩ 735
      { data := [9, 2, 1, 7], readPos := 1 }).1 2 1 [7] rfl,
    (C11_Read_consumes_two_bytes BoolDecoding.nonzero ⟨0, false⟩ 735
      { data := [9, 2, 1, 7], readPos := 3 }).2 (by decide)⟩

/-- C12: for every packet, buffer and protocol version, `Write` returns a nil error and
leaves the buffer with its former bytes followed by two more, the Difficulty byte and then
0x01 for Locked true or 0x00 for Locked false, its read position unchanged; a Difficulty of
at most 255 is its own byte; and the result is the same for any other protocol version. -/
theorem C12_Write_appends_two_bytes (packet : PacketPlayOutServerDifficulty)
    (proto proto' : Protocol) (buffer : Buffer) :
    PacketPlayOutServerDifficulty.Write packet proto buffer =
        (none, { data := buffer.data ++
                  [packet.Difficulty % 256, if packet.Locked then 0x01 else 0x00],
                 readPos := buffer.readPos }) ∧
      (packet.Difficulty ≤ 255 → packet.Difficulty % 256 = packet.Difficulty) ∧
      PacketPlayOutServerDifficulty.Write packet proto' buffer =
        PacketPlayOutServerDifficulty.Write packet proto buffer := by
  refine ⟨?_, fun h => Nat.mod_eq_of_lt (by omega), rfl⟩
  simp [PacketPlayOutServerDifficulty.Write, Buffer.WriteUint8, Buffer.WriteBool]

/-- C18: whenever `Read` returns a non-nil error the packet's Locked is what it was; on a
buffer without an unread byte the whole packet is what it was; on a buffer with exactly one
unread byte b, `Read` returns a non-nil error and the packet has Difficulty b and its former
Locked. -/
theorem C18_failed_Read_keeps_Locked (dec : BoolDecoding)
    (packet : PacketPlayOutServerDifficulty) (proto : Protocol) (buffer : Buffer) :
    ((PacketPlayOutServerDifficulty.Read dec packet proto buffer).1 ≠ none →
        (PacketPlayOutServerDifficulty.Read dec packet proto buffer).2.1.Locked =
          packet.Locked) ∧
      (buffer.unread = [] →
        (PacketPlayOutServerDifficulty.Read dec packet proto buffer).1 ≠ none ∧
          (PacketPlayOutServerDifficulty.Read dec packet proto buffer).2.1 = packet) ∧
      (∀ b, buffer.unread = [b] →
        (PacketPlayOutServerDifficulty.Read dec packet proto buffer).1 ≠ none ∧
          (PacketPlayOutServerDifficulty.Read dec packet proto buffer).2.1 =
            { Difficulty := b, Locked := packet.Locked }) := by
  refine ⟨?_, ?_, ?_⟩
  · intro herr
    cases hu : buffer.unread with
    | nil => rw [Read_of_unread_nil dec packet proto buffer hu]
    | cons b rest =>
      cases rest with
      | nil => rw [Read_of_unread_one dec packet proto buffer b hu]
      | cons b' rest' =>
        rw [(Read_of_unread_two dec packet proto buffer b b' rest' hu).1] at herr
        exact absurd rfl herr
  · intro hu
    rw [Read_of_unread_nil dec packet proto buffer hu]
    exact ⟨by simp, rfl⟩
  · intro b hu
    rw [Read_of_unread_one dec packet proto buffer b hu]
    exact ⟨by simp, rfl⟩

/-- C18, witness: a packet with Difficulty 3 and Locked true read over a buffer whose one
unread byte is 2: the error is underrun and the packet now has Difficulty 2, Locked true. -/
theorem C18_failed_Read_keeps_Locked_witness :
    (PacketPlayOutServerDifficulty.Read BoolDecoding.nonzero ⟨3, true⟩ 735
        { data := [2], readPos := 0 }).1 ≠ none ∧
      (PacketPlayOutServerDifficulty.Read BoolDecoding.nonzero ⟨3, true⟩ 735
        { data := [2], readPos := 0 }).2.1 = { Difficulty := 2, Locked := true } :=
  (C18_failed_Read_keeps_Locked BoolDecoding.nonzero ⟨3, true⟩ 735
    { data := [2], readPos := 0 }).2.2 2 rfl


/-! ## Lemmas on the derived table and on `init` -/

theorem hasState_invertStates (ord : IterOrder) (t : PacketsTable) (s : State) :
    hasState (invertStates ord t) s = hasState t s := by
  unfold hasState
  rw [get?_invertStates]
  cases t.get? s <;> rfl

theorem hasDirection_invertStates (ord : IterOrder) (t : PacketsTable) (s : State)
    (d : Direction) : hasDirection (invertStates ord t) s d = hasDirection t s d := by
  unfold hasDirection
  rw [get?_invertStates]
  cases t.get? s with
  | none => rfl
  | some directions =>
    simp only [Option.map_some', Option.some_bind, get?_invertDirections]
    cases directions.get? d <;> rfl

/-- A table none of whose (state, direction) tables stores an ID twice maps no two packet
types of one (state, direction) to one ID. -/
theorem lookupID_injective_of_distinct (t : PacketsTable) (h : tableIDsDistinct t = true)
    (s : State) (d : Direction) (k1 k2 : PacketType) (id : Int)
    (h1 : lookupID t s d k1 = some id) (h2 : lookupID t s d k2 = some id) : k1 = k2 := by
  unfold lookupID at h1 h2
  cases hs : t.get? s with
  | none => rw [hs] at h1; simp at h1
  | some directions =>
    rw [hs] at h1 h2
    simp only [Option.some_bind] at h1 h2
    cases hd : directions.get? d with
    | none => rw [hd] at h1; simp at h1
    | some pTypes =>
      rw [hd] at h1 h2
      simp only [Option.some_bind] at h1 h2
      have hm1 := mem_of_lookupEntries s directions t.entries hs
      have hm2 := mem_of_lookupEntries d pTypes directions.entries hd
      have hnd : (pTypes.entries.map Prod.snd).Nodup := by
        unfold tableIDsDistinct at h
        have := List.all_eq_true.mp h _ hm1
        have := List.all_eq_true.mp this _ hm2
        exact of_decide_eq_true this
      have e1 := mem_of_lookupEntries k1 id pTypes.entries h1
      have e2 := mem_of_lookupEntries k2 id pTypes.entries h2
      have := List.inj_on_of_nodup_map hnd e1 e2 rfl
      exact congrArg Prod.fst this

/-- On a table that maps no two packet types of (s, d) to one ID, the derived table holds
id → k exactly when the table holds k → id. -/
theorem lookupType_invertStates_iff (ord : IterOrder) (t : PacketsTable) (s : State)
    (d : Direction)
    (hinj : ∀ k1 k2 id, lookupID t s d k1 = some id → lookupID t s d k2 = some id → k1 = k2)
    (id : Int) (k : PacketType) :
    lookupType (invertStates ord t) s d id = some k ↔ lookupID t s d k = some id :=
  ⟨lookupType_invertStates_sound ord t s d id k,
    fun h => lookupType_invertStates_of_unique ord t s d id k h (fun k' hk' => hinj k' k id hk' h)⟩

theorem lookupID_mergedTable_init (ord : IterOrder) (c : ProtocolConsts) (s : State)
    (d : Direction) (k : PacketType) :
    lookupID (mergedTable ord c (staticRegistry c) initOverrides) s d k =
      lookupID mergedReference s d k := by
  unfold mergedReference
  rw [lookupID_mergedTable, staticRegistry_table_Unknown, lookupID_mergeStates,
    lookupID_copyStates]

theorem tableIDsDistinct_mergedReference : tableIDsDistinct mergedReference = true := by
  decide

theorem tableIDsDistinct_baselinePackets : tableIDsDistinct baselinePackets = true := by
  decide

theorem invertStates_baselinePackets :
    invertStates IterOrder.stored baselinePackets = baselinePacketsByID := rfl

theorem staticRegistry_tableByID_Unknown (c : ProtocolConsts) :
    (staticRegistry c).tableByID c.Unknown = baselinePacketsByID := by
  unfold Registry.tableByID staticRegistry staticPacketsByID
  show ((GoMap.empty.set c.Unknown baselinePacketsByID).get? c.Unknown).getD GoMap.empty = _
  rw [GoMap.get?_set_self]
  rfl

theorem init_tableByID (ord : IterOrder) (c : ProtocolConsts) (v : Protocol)
    (hv : v ∈ [c.V1_16, c.V1_16_1, c.V1_16_2, c.V1_16_3, c.V1_16_4]) :
    (copyPackets (RegisterPackets ord c (staticRegistry c) c.V1_16 initOverrides).1 c.V1_16
      [c.V1_16_1, c.V1_16_2, c.V1_16_3, c.V1_16_4]).tableByID v =
      invertStates ord (mergedTable ord c (staticRegistry c) initOverrides) := by
  rw [(copyPackets_tables _ _ _ v).2]
  by_cases h : v ∈ [c.V1_16_1, c.V1_16_2, c.V1_16_3, c.V1_16_4]
  · rw [if_pos h, RegisterPackets_tableByID]
  · rw [if_neg h]
    have h16 : v = c.V1_16 := by
      rcases List.mem_cons.mp hv with h' | h'
      · exact h'
      · exact absurd h' h
    rw [h16, RegisterPackets_tableByID]

theorem init_tableByID_Unknown (ord : IterOrder) (c : ProtocolConsts)
    (hU : c.Unknown ∉ [c.V1_16, c.V1_16_1, c.V1_16_2, c.V1_16_3, c.V1_16_4]) :
    (copyPackets (RegisterPackets ord c (staticRegistry c) c.V1_16 initOverrides).1 c.V1_16
      [c.V1_16_1, c.V1_16_2, c.V1_16_3, c.V1_16_4]).tableByID c.Unknown =
      baselinePacketsByID := by
  have h1 : c.Unknown ≠ c.V1_16 := fun e => hU (e ▸ List.mem_cons_self _ _)
  have h2 : c.Unknown ∉ [c.V1_16_1, c.V1_16_2, c.V1_16_3, c.V1_16_4] :=
    fun h => hU (List.mem_cons_of_mem _ h)
  rw [(copyPackets_tables _ _ _ c.Unknown).2, if_neg h2,
    RegisterPackets_tableByID_of_ne _ _ _ _ _ _ h1, staticRegistry_tableByID_Unknown]


/-- C15: for every iteration order and every value of the version constants, `init` does not
panic, and in the registry it leaves, for each of Unknown, V1_16, V1_16_1, V1_16_2, V1_16_3,
V1_16_4 and every state and direction, `packets` maps no two packet types to one ID and
`packetsByID` holds id → k exactly when `packets` holds k → id; the tables of Unknown are the
hand-written literals unless Unknown is one of the five versions. -/
theorem C15_init_registry_invariant (ord : IterOrder) (c : ProtocolConsts) :
    ∃ reg, init ord c = some reg ∧
      ∀ v ∈ [c.Unknown, c.V1_16, c.V1_16_1, c.V1_16_2, c.V1_16_3, c.V1_16_4],
        ∀ (s : State) (d : Direction),
          (∀ k1 k2 id, lookupID (reg.table v) s d k1 = some id →
            lookupID (reg.table v) s d k2 = some id → k1 = k2) ∧
          (∀ id k, lookupType (reg.tableByID v) s d id = some k ↔
            lookupID (reg.table v) s d k = some id) := by
  refine ⟨_, init_eq ord c, ?_⟩
  intro v hv s d
  by_cases h5 : v ∈ [c.V1_16, c.V1_16_1, c.V1_16_2, c.V1_16_3, c.V1_16_4]
  · have hinj : ∀ k1 k2 id,
        lookupID (mergedTable ord c (staticRegistry c) initOverrides) s d k1 = some id →
        lookupID (mergedTable ord c (staticRegistry c) initOverrides) s d k2 = some id →
        k1 = k2 := by
      intro k1 k2 id h1 h2
      rw [lookupID_mergedTable_init] at h1 h2
      exact lookupID_injective_of_distinct _ tableIDsDistinct_mergedReference s d k1 k2 id h1 h2
    rw [init_table ord c v h5, init_tableByID ord c v h5]
    exact ⟨hinj, lookupType_invertStates_iff ord _ s d hinj⟩
  · have hU : v = c.Unknown := by
      rcases List.mem_cons.mp hv with h' | h'
      · exact h'
      · exact absurd h' h5
    subst hU
    have hinj : ∀ k1 k2 id, lookupID baselinePackets s d k1 = some id →
        lookupID baselinePackets s d k2 = some id → k1 = k2 :=
      fun k1 k2 id h1 h2 =>
        lookupID_injective_of_distinct _ tableIDsDistinct_baselinePackets s d k1 k2 id h1 h2
    rw [init_table_Unknown ord c h5, init_tableByID_Unknown ord c h5,
      ← invertStates_baselinePackets]
    exact ⟨hinj, lookupType_invertStates_iff IterOrder.stored _ s d hinj⟩

/-- C16: for every registry, version, override map (colliding or not) and iteration order,
`RegisterPackets(v, o)` returns a nil error, and afterwards every `GetPacketByID(v, s, d, id)`
that returns a packet p without error has `GetPacketID(v, s, d, p)` return id without error,
and `packetsByID[v]` has a state table and a (state, direction) table exactly where
`packets[v]` has one. -/
theorem C16_derived_table_sound (ord : IterOrder) (c : ProtocolConsts) (reg : Registry)
    (proto : Protocol) (packetsMap : OverridesTable) :
    (RegisterPackets ord c reg proto packetsMap).2 = none ∧
      (∀ s d id p,
        GetPacketByID (RegisterPackets ord c reg proto packetsMap).1 proto s d id =
            (some p, none) →
          GetPacketID (RegisterPackets ord c reg proto packetsMap).1 proto s d p =
            (id, none)) ∧
      (∃ t tByID,
        (RegisterPackets ord c reg proto packetsMap).1.packets.get? proto = some t ∧
        (RegisterPackets ord c reg proto packetsMap).1.packetsByID.get? proto = some tByID ∧
        (∀ s, hasState tByID s = hasState t s) ∧
        (∀ s d, hasDirection tByID s d = hasDirection t s d)) := by
  refine ⟨RegisterPackets_error _ _ _ _ _, ?_, ?_⟩
  · intro s d id p h
    rw [GetPacketByID_eq, RegisterPackets_tableByID, packetResult_eq_ok] at h
    obtain ⟨t, ht, hp⟩ := h
    subst hp
    rw [GetPacketID_eq, RegisterPackets_table, typeOf_newPacket, idResult_eq_ok]
    exact lookupType_invertStates_sound ord _ s d id t ht
  · refine ⟨mergedTable ord c reg packetsMap,
      invertStates ord (mergedTable ord c reg packetsMap), ?_, ?_, ?_, ?_⟩
    · show (reg.packets.set proto _).get? proto = _
      rw [GoMap.get?_set_self]
      rfl
    · show (reg.packetsByID.set proto _).get? proto = _
      rw [GoMap.get?_set_self]
      rfl
    · intro s
      exact hasState_invertStates ord _ s
    · intro s d
      exact hasDirection_invertStates ord _ s d

/-- C17: for every registry, override map, iteration order and version v other than
`protocol.Unknown`, after `RegisterPackets(v, o)` every `GetPacketID` and `GetPacketByID`
query on `protocol.Unknown` and on any version w other than v returns what it returned
before the call; and when the call follows `copyPackets(v, ws...)`, every w of ws other than
v still answers as v did before the two calls. -/
theorem C17_RegisterPackets_touches_one_version (ord : IterOrder) (c : ProtocolConsts)
    (reg : Registry) (v : Protocol) (packetsMap : OverridesTable) (hv : v ≠ c.Unknown) :
    (∀ s d p id,
        GetPacketID (RegisterPackets ord c reg v packetsMap).1 c.Unknown s d p =
            GetPacketID reg c.Unknown s d p ∧
          GetPacketByID (RegisterPackets ord c reg v packetsMap).1 c.Unknown s d id =
            GetPacketByID reg c.Unknown s d id) ∧
      (∀ w, w ≠ v → ∀ s d p id,
        GetPacketID (RegisterPackets ord c reg v packetsMap).1 w s d p =
            GetPacketID reg w s d p ∧
          GetPacketByID (RegisterPackets ord c reg v packetsMap).1 w s d id =
            GetPacketByID reg w s d id) ∧
      (∀ ws w, w ∈ ws → w ≠ v → ∀ s d p id,
        GetPacketID (RegisterPackets ord c (copyPackets reg v ws) v packetsMap).1 w s d p =
            GetPacketID reg v s d p ∧
          GetPacketByID (RegisterPackets ord c (copyPackets reg v ws) v packetsMap).1 w s d id =
            GetPacketByID reg v s d id) := by
  have frame : ∀ (r : Registry) (w : Protocol), w ≠ v → ∀ s d p id,
      GetPacketID (RegisterPackets ord c r v packetsMap).1 w s d p = GetPacketID r w s d p ∧
        GetPacketByID (RegisterPackets ord c r v packetsMap).1 w s d id =
          GetPacketByID r w s d id := by
    intro r w hw s d p id
    rw [GetPacketID_eq, GetPacketByID_eq, RegisterPackets_table_of_ne _ _ _ _ _ _ hw,
      RegisterPackets_tableByID_of_ne _ _ _ _ _ _ hw, ← GetPacketID_eq, ← GetPacketByID_eq]
    exact ⟨rfl, rfl⟩
  refine ⟨frame reg c.Unknown (fun e => hv e.symm), frame reg, ?_⟩
  intro ws w hw hne s d p id
  obtain ⟨h1, h2⟩ := frame (copyPackets reg v ws) w hne s d p id
  have ht := copyPackets_tables v ws reg w
  rw [if_pos hw, if_pos hw] at ht
  rw [h1, h2, GetPacketID_eq, GetPacketByID_eq, ht.1, ht.2, ← GetPacketID_eq,
    ← GetPacketByID_eq]
  exact ⟨rfl, rfl⟩

/-- C17, witness: in the registry with V1_16 registered as `init` does and then aliased onto
736, registering the colliding overrides for 735 leaves the baseline version -1 resolving
`PacketHandshakingStart` to 0 and leaves 736 resolving `PacketPlayOutKeepAlive` to 0x1F, as
735 did when it was aliased. -/
theorem C17_RegisterPackets_touches_one_version_witness :
    GetPacketID
        (RegisterPackets IterOrder.stored sampleConsts
          (RegisterPackets IterOrder.stored sampleConsts (staticRegistry sampleConsts) 735
            initOverrides).1 735 collidingOverrides).1 (-1) State.Handshaking
        Direction.ServerBound (Packet.ofType PacketType.PacketHandshakingStart) =
        (0, none) ∧
      GetPacketID
        (RegisterPackets IterOrder.stored sampleConsts
          (copyPackets
            (RegisterPackets IterOrder.stored sampleConsts (staticRegistry sampleConsts) 735
              initOverrides).1 735 [736]) 735 collidingOverrides).1 736
        State.Play Direction.ClientBound (Packet.ofType PacketType.PacketPlayOutKeepAlive) =
        (0x1F, none) :=
  have h := C17_RegisterPackets_touches_one_version IterOrder.stored sampleConsts
    (RegisterPackets IterOrder.stored sampleConsts (staticRegistry sampleConsts) 735
      initOverrides).1 735 collidingOverrides (by decide)
  ⟨((h.1 State.Handshaking Direction.ServerBound
      (Packet.ofType PacketType.PacketHandshakingStart) 0).1).trans (by decide),
    ((h.2.2 [736] 736 (by decide) (by decide) State.Play Direction.ClientBound
      (Packet.ofType PacketType.PacketPlayOutKeepAlive) 0).1).trans (by decide)⟩

/-! ## Lemmas on the server -/

theorem foldl_append_singleton {α β : Type} (g : α → β) (l : List α) (init : List β) :
    l.foldl (fun acc e => acc ++ [g e]) init = init ++ l.map g := by
  induction l generalizing init with
  | nil => simp
  | cons a tl ih => rw [List.foldl_cons, ih, List.map_cons, List.append_assoc]; rfl

/-- The effects of kicking every player through `ForEachPlayer`: one kick for each entry of
the player map, in the order the entries are visited. -/
theorem ForEachPlayer_kick (ord : IterOrder) (server : Server) (reason : String) :
    server.ForEachPlayer ord (fun player => [Effect.kick player reason]) =
      ((ord.shuffle server.players.entries).map Prod.snd).map
        (fun player => Effect.kick player reason) := by
  unfold Server.ForEachPlayer GoMap.range
  rw [foldl_append_singleton (fun e : Nat × Player => Effect.kick e.2 reason)]
  simp [List.map_map, Function.comp_def]

/-- On every reachable server one goroutine waits on the shutdown channel while the server
holds a listener, and none otherwise. -/
theorem Server.Reachable.receivers (server : Server) (h : server.Reachable) :
    server.shutdownReceivers = if server.listener.isSome then 1 else 0 := by
  induction h with
  | newServer config => rfl
  | start netListen server _ ih =>
    unfold Server.Start
    cases hl : server.listener with
    | some l => simpa [hl] using ih
    | none =>
      rw [hl] at ih
      simp only [Option.isSome_none, Bool.false_eq_true, if_false] at ih
      cases hn : netListen "tcp"
          (JoinHostPort server.config.Host (toString server.config.Port)) with
      | error msg => simp [hn, hl, ih]
      | ok listener => simp [hn, ih]
  | stop ord server _ hret ih =>
    unfold Server.Stop at hret ⊢
    cases hl : server.listener with
    | none => simpa [hl] using ih
    | some l =>
      rw [hl] at ih
      simp only [Option.isSome_some, if_true] at ih
      simp [ih]
  | players server players _ ih => exact ih

/-- C13: for every server, `net.Listen` and iteration order, `Start` returns
`ErrServerRunning` exactly when the server holds a listener, and then leaves the server as
it was and has no effect; `Stop` returns `ErrServerStopped` exactly when the server holds no
listener, and then leaves the server as it was and has no effect (no kick, no send on the
shutdown channel); and `Stop` on the server `NewServer` makes returns `ErrServerStopped`. -/
theorem C13_lifecycle_guards (netListen : String → String → Except String Listener)
    (ord : IterOrder) (server : Server) (config : Config) :
    ((server.Start netListen).returned = some (some ServerError.ErrServerRunning) ↔
        server.listener ≠ none) ∧
      (server.listener ≠ none →
        (server.Start netListen).server = server ∧ (server.Start netListen).effects = []) ∧
      ((server.Stop ord).returned = some (some ServerError.ErrServerStopped) ↔
        server.listener = none) ∧
      (server.listener = none →
        (server.Stop ord).server = server ∧ (server.Stop ord).effects = []) ∧
      ((NewServer config).Stop ord).returned = some (some ServerError.ErrServerStopped) := by
  refine ⟨?_, ?_, ?_, ?_, rfl⟩
  · unfold Server.Start
    cases hl : server.listener with
    | some l => simp
    | none =>
      cases hn : netListen "tcp"
          (JoinHostPort server.config.Host (toString server.config.Port)) <;> simp [hn]
  · intro h
    unfold Server.Start
    cases hl : server.listener with
    | some l => exact ⟨rfl, rfl⟩
    | none => exact absurd hl h
  · unfold Server.Stop
    cases hl : server.listener with
    | none => simp
    | some l => cases server.shutdownReceivers <;> simp
  · intro h
    unfold Server.Stop
    rw [h]
    exact ⟨rfl, rfl⟩

/-- C14: on every reachable server that holds a listener l, for every iteration order,
`Stop` returns nil; its effects are one `Kick("server is shutting down")` for each player of
the map, in some order, then the send of true on the shutdown channel, then the close of l;
afterwards the server holds no listener, and no `Start` on it returns `ErrServerRunning`. -/
theorem C14_Stop_kicks_then_signals_then_closes (ord : IterOrder) (server : Server)
    (l : Listener) (hreach : server.Reachable) (hl : server.listener = some l) :
    ∃ visited : List Player,
      visited.Perm (server.players.entries.map Prod.snd) ∧
      (server.Stop ord).effects =
        visited.map (fun player => Effect.kick player "server is shutting down") ++
          [Effect.shutdownSend true, Effect.listenerClose l] ∧
      (server.Stop ord).returned = some none ∧
      (server.Stop ord).server.listener = none ∧
      ∀ netListen : String → String → Except String Listener,
        ((server.Stop ord).server.Start netListen).returned ≠
          some (some ServerError.ErrServerRunning) := by
  have hrecv := Server.Reachable.receivers server hreach
  rw [hl] at hrecv
  simp only [Option.isSome_some, if_true] at hrecv
  have hstop : server.Stop ord =
      { server := { server with listener := none, shutdownReceivers := 0 },
        effects := server.ForEachPlayer ord
            (fun player => [Effect.kick player "server is shutting down"]) ++
          [Effect.shutdownSend true, Effect.listenerClose l],
        returned := some none } := by
    unfold Server.Stop
    simp [hl, hrecv]
  refine ⟨(ord.shuffle server.players.entries).map Prod.snd,
    (ord.perm server.players.entries).map Prod.snd, ?_, ?_, ?_, ?_⟩
  · rw [hstop, ForEachPlayer_kick]
  · rw [hstop]
  · rw [hstop]
  · intro netListen
    rw [hstop]
    unfold Server.Start
    cases hn : netListen "tcp"
        (JoinHostPort server.config.Host (toString server.config.Port)) <;> simp [hn]

/-- C14, witness: the server started on localhost:25565 with players 1 and 2, stopped in
stored iteration order. -/
theorem C14_Stop_kicks_then_signals_then_closes_witness :
    ∃ visited : List Player,
      visited.Perm (sampleListeningServer.players.entries.map Prod.snd) ∧
      (sampleListeningServer.Stop IterOrder.stored).effects =
        visited.map (fun player => Effect.kick player "server is shutting down") ++
          [Effect.shutdownSend true, Effect.listenerClose { handle := 7 }] ∧
      (sampleListeningServer.Stop IterOrder.stored).returned = some none ∧
      (sampleListeningServer.Stop IterOrder.stored).server.listener = none ∧
      ∀ netListen : String → String → Except String Listener,
        ((sampleListeningServer.Stop IterOrder.stored).server.Start netListen).returned ≠
          some (some ServerError.ErrServerRunning) :=
  C14_Stop_kicks_then_signals_then_closes IterOrder.stored sampleListeningServer
    { handle := 7 }
    (Server.Reachable.players _ _
      (Server.Reachable.start sampleListen _ (Server.Reachable.newServer _)))
    rfl


end MCServer
